import Mathlib

/-!
# Verification of the wicked2nm migration engine

Shallow embedding of the migration engine (`src/migrate.rs`, `src/reader.rs`)
of the wicked-to-NetworkManager migration tool, together with theorems about
the dependency resolver, the DNS-policy merge, the dry-run path and the
unhandled-field classifier.

Collaborators that live outside the two embedded source files (the
`agama_network` model types, the interface-to-connection mapper and the
netconfig policy parser) are either taken as parameters or modelled from the
specification; each such definition says so in its doc comment.
-/

/-- IPv4 method of an `IpConfig` (agama_network model; the engine only ever
sets `manual` itself, the default mirrors the external crate's default of
automatic addressing). -/
inductive Ipv4Method where
  | auto
  | manual
  | linkLocal
  | disabled
deriving DecidableEq, Repr

/-- IPv6 method of an `IpConfig` (agama_network model). -/
inductive Ipv6Method where
  | auto
  | manual
  | linkLocal
  | disabled
deriving DecidableEq, Repr

/-- Kind-specific configuration variant of a `Connection` (agama_network
model).  Only the loopback variant is inspected by the migration engine;
the other kinds are collapsed into named tags. -/
inductive ConnectionConfig where
  | ethernet
  | bond
  | bridge
  | loopback
  | other (kind : String)
deriving DecidableEq, Repr

/-- IP configuration of a `Connection` (agama_network model).  CIDR addresses
are kept as their textual form.  Field defaults mirror the crate's
`Default` instance. -/
structure IpConfig where
  method4 : Ipv4Method := .auto
  method6 : Ipv6Method := .auto
  addresses : List String := []
  nameservers : List String := []
  dns_searchlist : List String := []
  dns_priority4 : Option Int := none
  dns_priority6 : Option Int := none
  ignore_auto_dns : Bool := false
deriving DecidableEq, Repr

/-- A normalized connection record (agama_network model).  The `uuid` is the
opaque stable identifier generated at mapping time, kept as a `Nat`.
Fields of the external model that the migration engine never consults
(match config, firewall zone, MAC, MTU, …) are omitted. -/
structure Connection where
  id : String := ""
  uuid : Nat := 0
  interface : Option String := none
  controller : Option Nat := none
  ip_config : IpConfig := {}
  config : ConnectionConfig := .ethernet
deriving DecidableEq, Repr

/-- Aggregate network state (agama_network model): the ordered collection of
connections.  The `GeneralState` carried by the external crate is a
placeholder policy container, out of scope. -/
structure NetworkState where
  connections : List Connection := []
deriving DecidableEq, Repr

/-- Link metadata of a raw wicked interface descriptor: the optional name of a
controller (master) interface. -/
structure LinkInfo where
  master : Option String := none
deriving DecidableEq, Repr

/-- A raw wicked interface descriptor as consumed by the migration engine.
Only the fields the embedded code reads (`name`, `link.master`) are kept;
the bonding/bridge/IP substructures are consumed by the external mapper. -/
structure Interface where
  name : String := ""
  link : LinkInfo := {}
deriving DecidableEq, Repr

/-- Result of mapping one raw interface: zero or more connections plus
non-fatal warnings (`interface.rs::to_connection`). -/
structure ConnectionResult where
  connections : List Connection := []
  warnings : List String := []
deriving DecidableEq, Repr

/-- Process-wide migration settings (`MIGRATION_SETTINGS`), passed
explicitly. -/
structure Settings where
  continue_migration : Bool := false
  dry_run : Bool := false
deriving DecidableEq, Repr

/-- Observable events of a migration run: warning/debug log lines, the per
connection debug dump of the dry-run path, and the three calls into the
external network-management adapter. -/
inductive Event where
  | logWarn (msg : String)
  | logDebug (msg : String)
  | logConn (c : Connection)
  | adapterConnect
  | adapterRead
  | adapterWrite (s : NetworkState)
deriving DecidableEq, Repr

/-- Result of a fallible, possibly panicking computation: Rust `Result` plus a
distinguished outcome for an index/unwrap panic. -/
inductive PResult (α : Type) where
  | ok (a : α)
  | err (msg : String)
  | panic
deriving DecidableEq, Repr

/-- Modelled from the spec: `NetconfigPolicy` (netconfig.rs, not in src/): the
static DNS policy document.  `staticDnsServers` is the outcome of parsing
the static nameserver list (`Netconfig::static_dns_servers`), which fails
as a whole when an individual entry fails to parse; `dnsPriority` abstracts
the policy match rules as a per-connection-id priority assignment (per
protocol), whose exact match semantics the spec leaves open. -/
structure Netconfig where
  staticDnsServers : Except String (List String)
  static_dns_searchlist : Option (List String) := none
  dnsPriority : String → Option Int × Option Int := fun _ => (none, none)

/-- The external network-management adapter boundary: the outcome of
`NetworkManagerAdapter::from_system`, of `read`, and of `write`. -/
structure Adapter where
  connectResult : Except String Unit := .ok ()
  readResult : Except String NetworkState := .ok {}
  writeResult : NetworkState → Except String Unit := fun _ => .ok ()

/-- The abort-on-warnings error message (migrate.rs lines 28 and 86). -/
def warnAbortMsg (id : String) : String :=
  "Migration of " ++ id ++ " failed because of warnings, use the `--continue-migration` flag to ignore"

/-- The missing-parent warning (migrate.rs line 26). -/
def missingParentWarnMsg (parent id : String) : String :=
  "Missing parent " ++ parent ++ " connection for " ++ id

/-- The second-pass internal-inconsistency error (migrate.rs line 40). -/
def missingConnectionMsg (id : String) : String :=
  "Unexpected failure - missing connection " ++ id

/-- The static-DNS parse failure message (migrate.rs line 125). -/
def staticDnsErrMsg (e : String) : String :=
  "Error when parsing static DNS servers: " ++ e

/-- The unhandled-fields warning attached to the deserialization result
(reader.rs line 88). -/
def unhandledFieldsMsg : String :=
  "Unhandled fields, use the `--continue-migration` flag to ignore"

/-- Debug log line for an intentionally ignored field (reader.rs line 78). -/
def ignoredFieldDebugMsg (ifc field : String) : String :=
  "Ignored field in interface " ++ ifc ++ ": " ++ field

/-- Warning log line for an unhandled field (reader.rs line 81). -/
def unhandledFieldWarnMsg (ifc field : String) : String :=
  "Unhandled field in interface " ++ ifc ++ ": " ++ field

/-- `HashMap::insert` on an association list: replaces any binding of the key
and appends the new one.  The iteration order of the Rust `HashMap` is
unspecified; the association-list order is the modelling choice. -/
def hmInsert (m : List (String × String)) (k v : String) : List (String × String) :=
  m.filter (fun kv => kv.1 ≠ k) ++ [(k, v)]

/-- The inner loop of `migrate` (migrate.rs lines 93-98): push each produced
connection and, when the interface declares a master, record the
child-id-to-parent-name pair. -/
def pushConnections (i : Interface) :
    List Connection → List Connection → List (String × String) →
    List Connection × List (String × String)
  | [], conns, parents => (conns, parents)
  | c :: cs, conns, parents =>
    let parents2 :=
      match i.link.master with
      | some p => hmInsert parents c.id p
      | none => parents
    pushConnections i cs (conns ++ [c]) parents2

/-- The mapping loop of `migrate` (migrate.rs lines 78-99): map each interface
through `to_connection` (taken as the parameter `toConn`, since the mapper
lives in interface.rs), log its warnings, abort on warnings unless
`continue_migration`, and collect connections and child-to-parent pairs.
The abort path indexes `connections[0]`, which panics when the mapper
returned warnings but no connections. -/
def mapPhase (toConn : Interface → Except String ConnectionResult) (cm : Bool) :
    List Interface → List Connection → List (String × String) →
    List Event × PResult (List Connection × List (String × String))
  | [], conns, parents => ([], .ok (conns, parents))
  | i :: rest, conns, parents =>
    match toConn i with
    | .error e => ([], .err e)
    | .ok r =>
      let evs := r.warnings.map Event.logWarn
      if r.warnings.isEmpty = false ∧ cm = false then
        match r.connections with
        | [] => (evs, .panic)
        | c :: _ => (evs, .err (warnAbortMsg c.id))
      else
        let cp := pushConnections i r.connections conns parents
        let res := mapPhase toConn cm rest cp.1 cp.2
        (evs ++ res.1, res.2)

/-- First pass of `update_parent_connection` (migrate.rs lines 19-31): for
each child/parent pair, find a connection whose `interface` equals the
parent name and record the child id with that connection's uuid; a missing
parent is a warning, fatal unless `continue_migration`. -/
def firstPass (cm : Bool) (connections : List Connection) :
    List (String × String) → List Event × PResult (List (String × Nat))
  | [] => ([], .ok [])
  | (id, parent) :: rest =>
    match connections.find? (fun c => c.interface = some parent) with
    | some pc =>
      let res := firstPass cm connections rest
      match res.2 with
      | .ok m => (res.1, .ok ((id, pc.uuid) :: m))
      | other => (res.1, other)
    | none =>
      let ev := Event.logWarn (missingParentWarnMsg parent id)
      if cm then
        let res := firstPass cm connections rest
        (ev :: res.1, res.2)
      else
        ([ev], .err (warnAbortMsg id))

/-- `iter_mut().find(...)` followed by the controller assignment
(migrate.rs lines 34-38): set the controller of the first connection
whose `interface` equals the given child id; `none` when there is no such
connection. -/
def setControllerFirst : List Connection → String → Nat → Option (List Connection)
  | [], _, _ => none
  | c :: rest, id, u =>
    if c.interface = some id then
      some ({ c with controller := some u } :: rest)
    else
      match setControllerFirst rest id u with
      | some rest2 => some (c :: rest2)
      | none => none

/-- Second pass of `update_parent_connection` (migrate.rs lines 33-45): for
every recorded child/uuid pair, set the controller of the first connection
whose `interface` equals the child id; not finding one is always fatal. -/
def secondPass : List Connection → List (String × Nat) → PResult (List Connection)
  | conns, [] => .ok conns
  | conns, (id, u) :: rest =>
    match setControllerFirst conns id u with
    | some conns2 => secondPass conns2 rest
    | none => .err (missingConnectionMsg id)

/-- `update_parent_connection` (migrate.rs lines 12-48): the two-pass
dependency resolver. -/
def updateParentConnection (cm : Bool) (connections : List Connection)
    (parents : List (String × String)) : List Event × PResult (List Connection) :=
  let res := firstPass cm connections parents
  match res.2 with
  | .ok parent_uuid => (res.1, secondPass connections parent_uuid)
  | .err e => (res.1, .err e)
  | .panic => (res.1, .panic)

/-- `create_lo_connection` (migrate.rs lines 50-67): the canonical loopback
connection. -/
def create_lo_connection : Connection :=
  { id := "lo"
    ip_config :=
      { method4 := .manual
        method6 := .manual
        addresses := ["127.0.0.1/8", "::1/128"] }
    interface := some "lo"
    config := .loopback }

/-- Modelled from the spec: `NetworkState::add_connection` of the external
agama_network crate (not in src/): inserts a connection, enforcing the
id-uniqueness invariant and failing with a structural-conflict error on
violation. -/
def add_connection (s : NetworkState) (c : Connection) : Except String NetworkState :=
  if s.connections.any (fun c2 => c2.id = c.id) then
    .error ("Connection " ++ c.id ++ " already exists")
  else
    .ok { connections := s.connections ++ [c] }

/-- Modelled from the spec: `NetworkState::get_connection` of the external
agama_network crate (not in src/): looks a connection up by its id. -/
def get_connection (s : NetworkState) (id : String) : Option Connection :=
  s.connections.find? (fun c => c.id = id)

/-- The assembly loop of `migrate` (migrate.rs lines 103-106): insert every
connection into a fresh state. -/
def assemble (conns : List Connection) : Except String NetworkState :=
  conns.foldlM (fun s c => add_connection s c) {}

/-- Modelled from the spec: `apply_dns_policy` (netconfig.rs, not in src/):
applies the policy match rules to assign a DNS priority per protocol to
each matching non-loopback connection; the match semantics are abstracted
as the per-connection assignment carried by the policy, and unmatched
connections keep their priorities. -/
def apply_dns_policy_conn (nc : Netconfig) (c : Connection) : Connection :=
  if c.id = "lo" then c
  else
    { c with
      ip_config :=
        { c.ip_config with
          dns_priority4 := ((nc.dnsPriority c.id).1).orElse (fun _ => c.ip_config.dns_priority4)
          dns_priority6 := ((nc.dnsPriority c.id).2).orElse (fun _ => c.ip_config.dns_priority6) } }

/-- Modelled from the spec (continued): the whole-state pass of
`apply_dns_policy`. -/
def apply_dns_policy (nc : Netconfig) (s : NetworkState) : NetworkState :=
  { connections := s.connections.map (apply_dns_policy_conn nc) }

/-- The `ignore_auto_dns` defaulting loop of `migrate` (migrate.rs lines
148-155): every non-loopback connection that received a DNS priority for
neither protocol gets `ignore_auto_dns := true`. -/
def set_ignore_auto_dns_conn (c : Connection) : Connection :=
  if c.id ≠ "lo" ∧ c.ip_config.dns_priority4 = none ∧ c.ip_config.dns_priority6 = none then
    { c with ip_config := { c.ip_config with ignore_auto_dns := true } }
  else c

/-- The `ignore_auto_dns` defaulting loop of `migrate` (migrate.rs lines
148-155) over the whole connection list. -/
def set_ignore_auto_dns (conns : List Connection) : List Connection :=
  conns.map set_ignore_auto_dns_conn

/-- Recover the loopback connection from the current live state, or
synthesize the canonical one (migrate.rs lines 118-121). -/
def mdp_loopback0 (current_state : NetworkState) : Connection :=
  match get_connection current_state "lo" with
  | some lo => lo
  | none => create_lo_connection

/-- The loopback connection after the static nameserver list `ns` and the
optional search list have been copied in (migrate.rs lines 122-140). -/
def mdp_loopback (nc : Netconfig) (current_state : NetworkState) (ns : List String) :
    Connection :=
  let loopback1 :=
    { mdp_loopback0 current_state with
      ip_config := { (mdp_loopback0 current_state).ip_config with nameservers := ns } }
  match nc.static_dns_searchlist with
  | some sl =>
    { loopback1 with
      ip_config := { loopback1.ip_config with dns_searchlist := sl } }
  | none => loopback1

/-- The body of `if let Some(netconfig) = netconfig` in `migrate`
(migrate.rs lines 116-156), continued: parse the static nameservers (a
parse failure degrades to the empty list under `continue_migration` and is
fatal otherwise), build the loopback, insert it into the state, apply the
DNS policy and default `ignore_auto_dns`. -/
def mergeDnsPolicy (cm : Bool) (nc : Netconfig) (current_state state : NetworkState) :
    List Event × PResult NetworkState :=
  let step :=
    match nc.staticDnsServers with
    | .ok nameservers => (([] : List Event), PResult.ok nameservers)
    | .error e =>
      if cm then
        ([Event.logWarn (staticDnsErrMsg e)], PResult.ok ([] : List String))
      else
        ([], PResult.err (staticDnsErrMsg e ++ ", use the `--continue-migration` flag to ignore"))
  match step.2 with
  | .err e => (step.1, .err e)
  | .panic => (step.1, .panic)
  | .ok nameservers =>
    match add_connection state (mdp_loopback nc current_state nameservers) with
    | .error e => (step.1, .err e)
    | .ok state2 =>
      let state3 := apply_dns_policy nc state2
      (step.1, .ok { connections := set_ignore_auto_dns state3.connections })

/-- The tail of `migrate` past the dry-run early return (migrate.rs lines
114-159): connect to the adapter, merge the DNS policy when one was
supplied (reading the current state first), and write the final state.
Events are relative to this stage; `migrateRun` prepends the earlier
ones. -/
def migrateApply (settings : Settings) (adapter : Adapter)
    (netconfig : Option Netconfig) (state : NetworkState) :
    List Event × PResult Unit :=
  match adapter.connectResult with
  | .error e => ([Event.adapterConnect], .err e)
  | .ok _ =>
    match netconfig with
    | none =>
      match adapter.writeResult state with
      | .ok _ => ([Event.adapterConnect, Event.adapterWrite state], .ok ())
      | .error e => ([Event.adapterConnect, Event.adapterWrite state], .err e)
    | some nc =>
      match adapter.readResult with
      | .error e => ([Event.adapterConnect, Event.adapterRead], .err e)
      | .ok current_state =>
        let mt := mergeDnsPolicy settings.continue_migration nc current_state state
        match mt.2 with
        | .err e => (Event.adapterConnect :: Event.adapterRead :: mt.1, .err e)
        | .panic => (Event.adapterConnect :: Event.adapterRead :: mt.1, .panic)
        | .ok state4 =>
          match adapter.writeResult state4 with
          | .ok _ =>
            (Event.adapterConnect :: Event.adapterRead :: (mt.1 ++ [Event.adapterWrite state4]),
              .ok ())
          | .error e =>
            (Event.adapterConnect :: Event.adapterRead :: (mt.1 ++ [Event.adapterWrite state4]),
              .err e)

/-- `migrate` (migrate.rs lines 69-160), the orchestrator: map every
interface, resolve parents, assemble the state, then either dump it
(dry-run) or hand it to `migrateApply`.  The result is paired with the
list of observable events the run produced. -/
def migrateRun (toConn : Interface → Except String ConnectionResult)
    (settings : Settings) (adapter : Adapter)
    (interfaces : List Interface) (netconfig : Option Netconfig) :
    List Event × PResult Unit :=
  match mapPhase toConn settings.continue_migration interfaces [] [] with
  | (evs, .err e) => (evs, .err e)
  | (evs, .panic) => (evs, .panic)
  | (evs, .ok (connections, parents)) =>
    match updateParentConnection settings.continue_migration connections parents with
    | (evs2, .err e) => (evs ++ evs2, .err e)
    | (evs2, .panic) => (evs ++ evs2, .panic)
    | (evs2, .ok connections2) =>
      match assemble connections2 with
      | .error e => (evs ++ evs2, .err e)
      | .ok state =>
        if settings.dry_run then
          (evs ++ evs2 ++ state.connections.map Event.logConn, .ok ())
        else
          let fin := migrateApply settings adapter netconfig state
          (evs ++ evs2 ++ fin.1, fin.2)

/-- `str::split_once` on a character list: split at the first occurrence of
the separator, `none` when the separator does not occur. -/
def splitOnceCh : List Char → Char → Option (List Char × List Char)
  | [], _ => none
  | c :: rest, d =>
    if c = d then some ([], rest)
    else
      match splitOnceCh rest d with
      | some (a, b) => some (c :: a, b)
      | none => none

/-- `str::split_once('.')` on a string (reader.rs line 73). -/
def splitOnceDot (s : String) : Option (String × String) :=
  match splitOnceCh s.data '.' with
  | some (a, b) => some (String.mk a, String.mk b)
  | none => none

/-- `str::parse::<usize>` on a reported index prefix, modelled over the
character list: decimal digits only, empty input fails.  (Rust's `usize`
parser also accepts a leading `+`, which serde-reported paths never
contain.) -/
def parseUsizeGo : List Char → Nat → Option Nat
  | [], acc => some acc
  | c :: cs, acc =>
    if c.isDigit then parseUsizeGo cs (acc * 10 + (c.toNat - 48))
    else none

/-- `str::parse::<usize>` (reader.rs line 74). -/
def parseUsize (s : String) : Option Nat :=
  match s.data with
  | [] => none
  | l => parseUsizeGo l 0

/-- Three-way string comparison, the `Ord` comparison Rust's
`slice::binary_search` is driven by.  Strings are compared through their
character lists, which is the definition of the string order. -/
def scmp (a b : String) : Ordering :=
  if a.data < b.data then .lt else if b.data < a.data then .gt else .eq

/-- The halving loop of `slice::binary_search` over a string slice, reduced
to the found/not-found outcome.  The `fuel` argument is only a structural
termination device: the loop shrinks `hi - lo` at every step, so any fuel
of at least `hi - lo` (as supplied by `rustBinarySearch`) never runs
out. -/
def bsearchGo (l : List String) (target : String) : Nat → Nat → Nat → Bool
  | 0, _, _ => false
  | fuel + 1, lo, hi =>
    if lo < hi then
      match scmp (l.getD ((lo + hi) / 2) "") target with
      | .lt => bsearchGo l target fuel ((lo + hi) / 2 + 1) hi
      | .eq => true
      | .gt => bsearchGo l target fuel lo ((lo + hi) / 2)
    else false

/-- `slice::binary_search(&field).is_ok()` (reader.rs line 77). -/
def rustBinarySearch (l : List String) (t : String) : Bool :=
  bsearchGo l t l.length 0 l.length

/-- `IGNORED_FIELDS` (reader.rs lines 20-29): the fixed allow-list of legacy
fields that are ignored if present; required to be in alphabetical order
because membership is decided by binary search. -/
def IGNORED_FIELDS : List String :=
  [ "ipv4.arp-notify"
  , "ipv4.forwarding"
  , "ipv6.accept-dad"
  , "ipv6.accept-ra"
  , "ipv6.addr-gen-mode"
  , "ipv6.autoconf"
  , "ipv6.forwarding"
  , "ipv6.stable-secret"
  ]

/-- One step of the unhandled-field filter of `deserialize_xml` (reader.rs
lines 72-84): split the reported path at the first dot, parse the prefix
as an index into the deserialized interfaces, and classify the field by
binary search in `IGNORED_FIELDS`.  Each `unwrap`/unchecked index is a
panic. -/
def classifyStep (interfaces : List Interface) (e : String) :
    PResult (Bool × Event) :=
  match splitOnceDot e with
  | none => .panic
  | some (idxStr, field) =>
    match parseUsize idxStr with
    | none => .panic
    | some n =>
      match interfaces.get? n with
      | none => .panic
      | some ifc =>
        if rustBinarySearch IGNORED_FIELDS field then
          .ok (false, .logDebug (ignoredFieldDebugMsg ifc.name field))
        else
          .ok (true, .logWarn (unhandledFieldWarnMsg ifc.name field))

/-- The unhandled-field filter of `deserialize_xml` (reader.rs lines 70-85):
keep exactly the reported paths whose field is not in `IGNORED_FIELDS`,
logging each one. -/
def classifyUnhandledFields (interfaces : List Interface) :
    List String → PResult (List String × List Event)
  | [] => .ok ([], [])
  | e :: rest =>
    match classifyStep interfaces e with
    | .panic => .panic
    | .err m => .err m
    | .ok (keep, ev) =>
      match classifyUnhandledFields interfaces rest with
      | .ok (kept, evs) => .ok ((if keep then [e] else []) ++ kept, ev :: evs)
      | other => other

/-- The tail of `deserialize_xml` (reader.rs lines 70-92): run the filter
over the paths reported as unconsumed and attach the unhandled-fields
warning to the result when any path survived. -/
def unconsumedFieldsOutcome (interfaces : List Interface) (paths : List String) :
    PResult (Option String × List Event) :=
  match classifyUnhandledFields interfaces paths with
  | .ok (kept, evs) =>
    .ok ((if kept.isEmpty then none else some unhandledFieldsMsg), evs)
  | .err m => .err m
  | .panic => .panic

/-- Substring test on character lists (used to state that an error message
names an interface, field or file). -/
def containsSub (pat : List Char) : List Char → Bool
  | [] => pat.isEmpty
  | c :: rest => pat.isPrefixOf (c :: rest) || containsSub pat rest

/-- `msg` mentions `name`: the characters of `name` occur contiguously in
`msg`. -/
def NamesSub (msg name : String) : Prop :=
  containsSub name.data msg.data = true

theorem pairs_eq_of_keys_nodup {α β : Type} (l : List (α × β))
    (hnd : (l.map Prod.fst).Nodup) (a b : α × β)
    (ha : a ∈ l) (hb : b ∈ l) (hab : a.1 = b.1) : a = b := by
  induction l with
  | nil => cases ha
  | cons hd tl ih =>
    simp only [List.map_cons, List.nodup_cons] at hnd
    rcases List.mem_cons.mp ha with ha1 | ha1 <;>
      rcases List.mem_cons.mp hb with hb1 | hb1
    · exact ha1.trans hb1.symm
    · exfalso
      apply hnd.1
      have hm : b.1 ∈ tl.map Prod.fst := List.mem_map_of_mem Prod.fst hb1
      rwa [← hab, ha1] at hm
    · exfalso
      apply hnd.1
      have hm : a.1 ∈ tl.map Prod.fst := List.mem_map_of_mem Prod.fst ha1
      rwa [hab, hb1] at hm
    · exact ih hnd.2 ha1 hb1

theorem fp_events (cm : Bool) (conns : List Connection) :
    ∀ prs : List (String × String),
      ∀ ev ∈ (firstPass cm conns prs).1, ∃ s, ev = Event.logWarn s := by
  intro prs
  induction prs with
  | nil => simp [firstPass]
  | cons pr rest ih =>
    obtain ⟨id, parent⟩ := pr
    intro ev hev
    simp only [firstPass] at hev
    cases hf : conns.find? (fun c => c.interface = some parent) with
    | some pc =>
      rw [hf] at hev
      cases hres : (firstPass cm conns rest).2 with
      | ok m => rw [hres] at hev; exact ih ev hev
      | err e => rw [hres] at hev; exact ih ev hev
      | panic => rw [hres] at hev; exact ih ev hev
    | none =>
      rw [hf] at hev
      cases cm with
      | true =>
        simp only [if_true] at hev
        rcases List.mem_cons.mp hev with h1 | h1
        · exact ⟨_, h1⟩
        · exact ih ev h1
      | false =>
        simp only [if_false] at hev
        rcases List.mem_cons.mp hev with h1 | h1
        · exact ⟨_, h1⟩
        · cases h1

theorem upc_events (cm : Bool) (conns : List Connection) (prs : List (String × String)) :
    ∀ ev ∈ (updateParentConnection cm conns prs).1, ∃ s, ev = Event.logWarn s := by
  intro ev hev
  simp only [updateParentConnection] at hev
  cases hres : (firstPass cm conns prs).2 with
  | ok m => rw [hres] at hev; exact fp_events cm conns prs ev hev
  | err e => rw [hres] at hev; exact fp_events cm conns prs ev hev
  | panic => rw [hres] at hev; exact fp_events cm conns prs ev hev

theorem mp_events (toConn : Interface → Except String ConnectionResult) (cm : Bool) :
    ∀ (ifcs : List Interface) (conns : List Connection) (prs : List (String × String)),
      ∀ ev ∈ (mapPhase toConn cm ifcs conns prs).1, ∃ s, ev = Event.logWarn s := by
  intro ifcs
  induction ifcs with
  | nil => intro conns prs ev hev; simp [mapPhase] at hev
  | cons i rest ih =>
    intro conns prs ev hev
    simp only [mapPhase] at hev
    cases htc : toConn i with
    | error e => rw [htc] at hev; simp at hev
    | ok r =>
      rw [htc] at hev
      simp only at hev
      by_cases hw : r.warnings.isEmpty = false ∧ cm = false
      · rw [if_pos hw] at hev
        cases hc : r.connections with
        | nil =>
          rw [hc] at hev
          rcases List.mem_map.mp hev with ⟨s, _, hs⟩
          exact ⟨s, hs.symm⟩
        | cons c cs =>
          rw [hc] at hev
          rcases List.mem_map.mp hev with ⟨s, _, hs⟩
          exact ⟨s, hs.symm⟩
      · rw [if_neg hw] at hev
        rcases List.mem_append.mp hev with h1 | h1
        · rcases List.mem_map.mp h1 with ⟨s, _, hs⟩
          exact ⟨s, hs.symm⟩
        · exact ih _ _ ev h1

theorem fp_no_panic (cm : Bool) (conns : List Connection) :
    ∀ prs : List (String × String), (firstPass cm conns prs).2 ≠ PResult.panic := by
  intro prs
  induction prs with
  | nil => simp [firstPass]
  | cons pr rest ih =>
    obtain ⟨id, parent⟩ := pr
    simp only [firstPass]
    cases hf : conns.find? (fun c => c.interface = some parent) with
    | some pc =>
      cases hres : (firstPass cm conns rest).2 with
      | ok m => simp
      | err e => simp
      | panic => exact absurd hres ih
    | none =>
      cases cm with
      | true =>
        simp only [if_true]
        cases hres : (firstPass true conns rest).2 with
        | ok m => simp
        | err e => simp
        | panic => exact absurd hres ih
      | false => simp

theorem fp_ok_keys (cm : Bool) (conns : List Connection) :
    ∀ (prs : List (String × String)) (m : List (String × Nat)),
      (firstPass cm conns prs).2 = PResult.ok m →
      ∀ q ∈ m, ∃ pr ∈ prs, pr.1 = q.1 ∧
        ∃ c, conns.find? (fun c2 => c2.interface = some pr.2) = some c ∧ c.uuid = q.2 := by
  intro prs
  induction prs with
  | nil =>
    intro m hm q hq
    simp [firstPass] at hm
    subst hm
    cases hq
  | cons pr rest ih =>
    obtain ⟨id, parent⟩ := pr
    intro m hm q hq
    simp only [firstPass] at hm
    cases hf : conns.find? (fun c => c.interface = some parent) with
    | some pc =>
      rw [hf] at hm
      cases hres : (firstPass cm conns rest).2 with
      | ok m0 =>
        rw [hres] at hm
        simp only [PResult.ok.injEq] at hm
        subst hm
        rcases List.mem_cons.mp hq with hq1 | hq1
        · subst hq1
          exact ⟨(id, parent), List.mem_cons_self _ _, rfl, pc, hf, rfl⟩
        · rcases ih m0 hres q hq1 with ⟨pr0, hpr0, hk, c, hc, hu⟩
          exact ⟨pr0, List.mem_cons_of_mem _ hpr0, hk, c, hc, hu⟩
      | err e => rw [hres] at hm; cases hm
      | panic => rw [hres] at hm; cases hm
    | none =>
      rw [hf] at hm
      cases cm with
      | true =>
        simp only [if_true] at hm
        rcases ih m hm q hq with ⟨pr0, hpr0, hk, c, hc, hu⟩
        exact ⟨pr0, List.mem_cons_of_mem _ hpr0, hk, c, hc, hu⟩
      | false => simp at hm

theorem fp_found_all (cm : Bool) (conns : List Connection) :
    ∀ prs : List (String × String),
      (∀ pr ∈ prs, (conns.find? (fun c => c.interface = some pr.2)).isSome) →
      ∃ m, firstPass cm conns prs = ([], PResult.ok m) ∧
        m.map Prod.fst = prs.map Prod.fst := by
  intro prs
  induction prs with
  | nil => exact fun _ => ⟨[], rfl, rfl⟩
  | cons pr rest ih =>
    obtain ⟨id, parent⟩ := pr
    intro hall
    have hf0 := hall (id, parent) (List.mem_cons_self _ _)
    rcases Option.isSome_iff_exists.mp hf0 with ⟨pc, hf⟩
    rcases ih (fun pr0 h0 => hall pr0 (List.mem_cons_of_mem _ h0)) with ⟨m0, hm0, hkeys⟩
    refine ⟨(id, pc.uuid) :: m0, ?_, ?_⟩
    · simp only [firstPass, hf, hm0]
    · simp [hkeys]

theorem fp_err_of_missing (conns : List Connection) :
    ∀ (prs : List (String × String)) (id p : String),
      (id, p) ∈ prs →
      conns.find? (fun c => c.interface = some p) = none →
      ∃ e, (firstPass false conns prs).2 = PResult.err e := by
  intro prs
  induction prs with
  | nil => intro id p h; cases h
  | cons pr rest ih =>
    obtain ⟨id0, parent0⟩ := pr
    intro id p hmem hnone
    simp only [firstPass]
    cases hf : conns.find? (fun c => c.interface = some parent0) with
    | some pc =>
      have hne : (id, p) ≠ (id0, parent0) := by
        intro heq
        have h2 : p = parent0 := congrArg Prod.snd heq
        rw [h2] at hnone
        rw [hnone] at hf
        cases hf
      have hmem0 : (id, p) ∈ rest := by
        rcases List.mem_cons.mp hmem with h1 | h1
        · exact absurd h1 hne
        · exact h1
      rcases ih id p hmem0 hnone with ⟨e, he⟩
      rw [he]
      exact ⟨e, rfl⟩
    | none => exact ⟨warnAbortMsg id0, rfl⟩

theorem fp_true_ok (conns : List Connection) :
    ∀ prs : List (String × String), ∃ m, (firstPass true conns prs).2 = PResult.ok m := by
  intro prs
  induction prs with
  | nil => exact ⟨[], rfl⟩
  | cons pr rest ih =>
    obtain ⟨id, parent⟩ := pr
    rcases ih with ⟨m0, hm0⟩
    simp only [firstPass]
    cases hf : conns.find? (fun c => c.interface = some parent) with
    | some pc => rw [hm0]; exact ⟨(id, pc.uuid) :: m0, rfl⟩
    | none => simp only [if_true]; exact ⟨m0, hm0⟩

theorem scf_interfaces (k : String) (u : Nat) :
    ∀ (conns conns2 : List Connection),
      setControllerFirst conns k u = some conns2 →
      conns2.map (fun c => c.interface) = conns.map (fun c => c.interface) := by
  intro conns
  induction conns with
  | nil => intro conns2 h; cases h
  | cons c rest ih =>
    intro conns2 h
    simp only [setControllerFirst] at h
    by_cases hc : c.interface = some k
    · rw [if_pos hc] at h
      simp only [Option.some.injEq] at h
      subst h
      simp
    · rw [if_neg hc] at h
      cases hr : setControllerFirst rest k u with
      | some rest2 =>
        rw [hr] at h
        simp only [Option.some.injEq] at h
        subst h
        simp [ih rest2 hr]
      | none => rw [hr] at h; cases h

theorem scf_get_of_ne (k : String) (u : Nat) :
    ∀ (conns conns2 : List Connection),
      setControllerFirst conns k u = some conns2 →
      ∀ (j : Nat) (c0 : Connection), conns[j]? = some c0 → c0.interface ≠ some k →
        conns2[j]? = some c0 := by
  intro conns
  induction conns with
  | nil => intro conns2 h; cases h
  | cons c rest ih =>
    intro conns2 h j c0 hj hne
    simp only [setControllerFirst] at h
    by_cases hc : c.interface = some k
    · rw [if_pos hc] at h
      simp only [Option.some.injEq] at h
      subst h
      cases j with
      | zero =>
        simp only [List.getElem?_cons_zero, Option.some.injEq] at hj
        subst hj
        exact absurd hc hne
      | succ j0 =>
        simpa using hj
    · rw [if_neg hc] at h
      cases hr : setControllerFirst rest k u with
      | some rest2 =>
        rw [hr] at h
        simp only [Option.some.injEq] at h
        subst h
        cases j with
        | zero => simpa using hj
        | succ j0 =>
          simp only [List.getElem?_cons_succ] at hj ⊢
          exact ih rest2 hr j0 c0 hj hne
      | none => rw [hr] at h; cases h

theorem scf_find_self (k : String) (u : Nat) :
    ∀ (conns conns2 : List Connection),
      setControllerFirst conns k u = some conns2 →
      ∀ c', conns2.find? (fun c => c.interface = some k) = some c' →
        c'.controller = some u := by
  intro conns
  induction conns with
  | nil => intro conns2 h; cases h
  | cons c rest ih =>
    intro conns2 h c' hfind
    simp only [setControllerFirst] at h
    by_cases hc : c.interface = some k
    · rw [if_pos hc] at h
      simp only [Option.some.injEq] at h
      subst h
      rw [List.find?_cons_of_pos _ (by simpa using hc)] at hfind
      simp only [Option.some.injEq] at hfind
      subst hfind
      rfl
    · rw [if_neg hc] at h
      cases hr : setControllerFirst rest k u with
      | some rest2 =>
        rw [hr] at h
        simp only [Option.some.injEq] at h
        subst h
        rw [List.find?_cons_of_neg _ (by simpa using hc)] at hfind
        exact ih rest2 hr c' hfind
      | none => rw [hr] at h; cases h

theorem scf_find_other (k k' : String) (u : Nat) (hne : k' ≠ k) :
    ∀ (conns conns2 : List Connection),
      setControllerFirst conns k u = some conns2 →
      conns2.find? (fun c => c.interface = some k') =
        conns.find? (fun c => c.interface = some k') := by
  intro conns
  induction conns with
  | nil => intro conns2 h; cases h
  | cons c rest ih =>
    intro conns2 h
    simp only [setControllerFirst] at h
    by_cases hc : c.interface = some k
    · rw [if_pos hc] at h
      simp only [Option.some.injEq] at h
      subst h
      have hck' : ¬ c.interface = some k' := by
        rw [hc]
        simp only [Option.some.injEq]
        exact fun hkk => hne hkk.symm
      rw [List.find?_cons_of_neg _ (by simpa using hck'),
          List.find?_cons_of_neg _ (by simpa using hck')]
    · rw [if_neg hc] at h
      cases hr : setControllerFirst rest k u with
      | some rest2 =>
        rw [hr] at h
        simp only [Option.some.injEq] at h
        subst h
        by_cases hck' : c.interface = some k'
        · rw [List.find?_cons_of_pos _ (by simpa using hck'),
              List.find?_cons_of_pos _ (by simpa using hck')]
        · rw [List.find?_cons_of_neg _ (by simpa using hck'),
              List.find?_cons_of_neg _ (by simpa using hck')]
          exact ih rest2 hr
      | none => rw [hr] at h; cases h

theorem scf_isSome_of_mem (k : String) (u : Nat) :
    ∀ conns : List Connection, (∃ c ∈ conns, c.interface = some k) →
      ∃ conns2, setControllerFirst conns k u = some conns2 := by
  intro conns
  induction conns with
  | nil => intro h; rcases h with ⟨c, hc, _⟩; cases hc
  | cons c rest ih =>
    intro h
    simp only [setControllerFirst]
    by_cases hc : c.interface = some k
    · rw [if_pos hc]
      exact ⟨_, rfl⟩
    · rw [if_neg hc]
      have hrest : ∃ c0 ∈ rest, c0.interface = some k := by
        rcases h with ⟨c0, hc0, hi⟩
        rcases List.mem_cons.mp hc0 with h1 | h1
        · subst h1; exact absurd hi hc
        · exact ⟨c0, h1, hi⟩
      rcases ih hrest with ⟨rest2, hr⟩
      rw [hr]
      exact ⟨_, rfl⟩

theorem sp_no_panic :
    ∀ (m : List (String × Nat)) (conns : List Connection),
      secondPass conns m ≠ PResult.panic := by
  intro m
  induction m with
  | nil => intro conns; simp [secondPass]
  | cons q rest ih =>
    obtain ⟨id, u⟩ := q
    intro conns
    simp only [secondPass]
    cases hs : setControllerFirst conns id u with
    | some conns2 => exact ih conns2
    | none => simp

theorem sp_ok :
    ∀ (m : List (String × Nat)) (conns : List Connection),
      (∀ q ∈ m, ∃ c ∈ conns, c.interface = some q.1) →
      ∃ conns2, secondPass conns m = PResult.ok conns2 := by
  intro m
  induction m with
  | nil => intro conns _; exact ⟨conns, rfl⟩
  | cons q rest ih =>
    obtain ⟨id, u⟩ := q
    intro conns hall
    rcases scf_isSome_of_mem id u conns (hall (id, u) (List.mem_cons_self _ _)) with ⟨conns2, hs⟩
    simp only [secondPass, hs]
    apply ih conns2
    intro q0 hq0
    have hintf := scf_interfaces id u conns conns2 hs
    rcases hall q0 (List.mem_cons_of_mem _ hq0) with ⟨c, hc, hi⟩
    have : some q0.1 ∈ conns2.map (fun c => c.interface) := by
      rw [hintf]
      exact List.mem_map.mpr ⟨c, hc, hi⟩
    rcases List.mem_map.mp this with ⟨c2, hc2, hi2⟩
    exact ⟨c2, hc2, hi2⟩

theorem sp_find_other (k0 : String) :
    ∀ (m : List (String × Nat)) (conns conns2 : List Connection),
      (∀ q ∈ m, q.1 ≠ k0) →
      secondPass conns m = PResult.ok conns2 →
      conns2.find? (fun c => c.interface = some k0) =
        conns.find? (fun c => c.interface = some k0) := by
  intro m
  induction m with
  | nil =>
    intro conns conns2 _ h
    simp only [secondPass, PResult.ok.injEq] at h
    subst h
    rfl
  | cons q rest ih =>
    obtain ⟨id, u⟩ := q
    intro conns conns2 hne h
    simp only [secondPass] at h
    cases hs : setControllerFirst conns id u with
    | some connsMid =>
      rw [hs] at h
      have h1 := ih connsMid conns2 (fun q0 hq0 => hne q0 (List.mem_cons_of_mem _ hq0)) h
      have h2 := scf_find_other id k0 u
        (Ne.symm (hne (id, u) (List.mem_cons_self _ _))) conns connsMid hs
      exact h1.trans h2
    | none => rw [hs] at h; cases h

theorem sp_find_controller :
    ∀ (m : List (String × Nat)) (conns conns2 : List Connection) (k0 : String) (u0 : Nat),
      (m.map Prod.fst).Nodup →
      (k0, u0) ∈ m →
      secondPass conns m = PResult.ok conns2 →
      ∀ c', conns2.find? (fun c => c.interface = some k0) = some c' →
        c'.controller = some u0 := by
  intro m
  induction m with
  | nil => intro conns conns2 k0 u0 _ hmem; cases hmem
  | cons q rest ih =>
    obtain ⟨id, u⟩ := q
    intro conns conns2 k0 u0 hnd hmem h c' hfind
    simp only [secondPass] at h
    cases hs : setControllerFirst conns id u with
    | some connsMid =>
      rw [hs] at h
      simp only [List.map_cons, List.nodup_cons] at hnd
      rcases List.mem_cons.mp hmem with h1 | h1
      · have hk : id = k0 := (congrArg Prod.fst h1).symm
        have hu : u = u0 := (congrArg Prod.snd h1).symm
        subst hk
        subst hu
        have hkeys : ∀ q ∈ rest, q.1 ≠ id := by
          intro q0 hq0 heq
          exact hnd.1 (heq ▸ List.mem_map_of_mem Prod.fst hq0)
        have hpres := sp_find_other id rest connsMid conns2 hkeys h
        rw [hpres] at hfind
        exact scf_find_self id u conns connsMid hs c' hfind
      · exact ih connsMid conns2 k0 u0 hnd.2 h1 h c' hfind
    | none => rw [hs] at h; cases h

theorem sp_get_of_ne :
    ∀ (m : List (String × Nat)) (conns conns2 : List Connection),
      secondPass conns m = PResult.ok conns2 →
      ∀ (j : Nat) (c0 : Connection), conns[j]? = some c0 →
        (∀ q ∈ m, c0.interface ≠ some q.1) →
        conns2[j]? = some c0 := by
  intro m
  induction m with
  | nil =>
    intro conns conns2 h j c0 hj _
    simp only [secondPass, PResult.ok.injEq] at h
    subst h
    exact hj
  | cons q rest ih =>
    obtain ⟨id, u⟩ := q
    intro conns conns2 h j c0 hj hne
    simp only [secondPass] at h
    cases hs : setControllerFirst conns id u with
    | some connsMid =>
      rw [hs] at h
      have hmid : connsMid[j]? = some c0 :=
        scf_get_of_ne id u conns connsMid hs j c0 hj
          (hne (id, u) (List.mem_cons_self _ _))
      exact ih connsMid conns2 h j c0 hmid
        (fun q0 hq0 => hne q0 (List.mem_cons_of_mem _ hq0))
    | none => rw [hs] at h; cases h

theorem sp_interfaces :
    ∀ (m : List (String × Nat)) (conns conns2 : List Connection),
      secondPass conns m = PResult.ok conns2 →
      conns2.map (fun c => c.interface) = conns.map (fun c => c.interface) := by
  intro m
  induction m with
  | nil =>
    intro conns conns2 h
    simp only [secondPass, PResult.ok.injEq] at h
    subst h
    rfl
  | cons q rest ih =>
    obtain ⟨id, u⟩ := q
    intro conns conns2 h
    simp only [secondPass] at h
    cases hs : setControllerFirst conns id u with
    | some connsMid =>
      rw [hs] at h
      exact (ih connsMid conns2 h).trans (scf_interfaces id u conns connsMid hs)
    | none => rw [hs] at h; cases h

theorem assemble_go_connections :
    ∀ (conns : List Connection) (s0 st : NetworkState),
      conns.foldlM (fun s c => add_connection s c) s0 = Except.ok st →
      st.connections = s0.connections ++ conns := by
  intro conns
  induction conns with
  | nil =>
    intro s0 st h
    simp only [List.foldlM] at h
    cases h
    simp
  | cons c rest ih =>
    intro s0 st h
    simp only [List.foldlM_cons] at h
    cases ha : add_connection s0 c with
    | ok s1 =>
      rw [ha] at h
      simp only [Bind.bind, Except.bind] at h
      have h1 := ih s1 st h
      simp only [add_connection] at ha
      by_cases hd : s0.connections.any (fun c2 => c2.id = c.id)
      · rw [if_pos hd] at ha; cases ha
      · rw [if_neg hd] at ha
        cases ha
        simp [h1]
    | error e =>
      rw [ha] at h
      simp only [Bind.bind, Except.bind] at h
      cases h

theorem assemble_ok_connections (conns : List Connection) (st : NetworkState) :
    assemble conns = Except.ok st → st.connections = conns := by
  intro h
  have := assemble_go_connections conns {} st h
  simpa using this

/-- C1, counterexample: the resolver's second pass does NOT locate the
Connection whose `id` equals the child id — it matches on the `interface`
field (migrate.rs line 36).  In a batch whose parent is present and whose
child connection has an `id` that no connection carries as `interface`,
the claimed behavior would set that child's controller, but the code
fails with the internal-inconsistency error instead. -/
theorem resolver_second_pass_not_by_id_cex :
    (updateParentConnection true
      [{ id := "child0", uuid := 1, interface := some "eth7" },
       { id := "bond0con", uuid := 7, interface := some "bond0" }]
      [("child0", "bond0")]).2
      = PResult.err (missingConnectionMsg "child0")
    ∧ (∃ c ∈ [({ id := "child0", uuid := 1, interface := some "eth7" } : Connection),
              { id := "bond0con", uuid := 7, interface := some "bond0" }], c.id = "child0")
    ∧ (∃ pc ∈ [({ id := "child0", uuid := 1, interface := some "eth7" } : Connection),
               { id := "bond0con", uuid := 7, interface := some "bond0" }],
         pc.interface = some "bond0") := by
  refine ⟨by rfl, ?_, ?_⟩
  · exact ⟨_, List.mem_cons_self _ _, rfl⟩
  · exact ⟨_, List.mem_cons_of_mem _ (List.mem_cons_self _ _), rfl⟩

/-- C1 (amended): for every recorded child/parent pair whose parent
interface is present, the resolver's second pass locates the first
Connection whose `interface` field (not its `id`) equals the child id and
sets its controller to the parent connection's uuid; when every recorded
pair finds both its parent and a connection carrying the child id as
`interface` (as the mapper guarantees by naming connections after their
interface), resolution succeeds and that connection's controller equals
the parent's uuid. -/
theorem resolver_second_pass_by_interface
    (cm : Bool) (connections : List Connection) (parents : List (String × String))
    (id p : String) (pc : Connection)
    (hnodup : (parents.map Prod.fst).Nodup)
    (hpar : ∀ pr ∈ parents, (connections.find? (fun c => c.interface = some pr.2)).isSome)
    (hchild : ∀ pr ∈ parents, ∃ c ∈ connections, c.interface = some pr.1)
    (hmem : (id, p) ∈ parents)
    (hpc : connections.find? (fun c => c.interface = some p) = some pc) :
    ∃ conns2, updateParentConnection cm connections parents = ([], PResult.ok conns2) ∧
      ∃ c', conns2.find? (fun c => c.interface = some id) = some c' ∧
        c'.controller = some pc.uuid := by
  rcases fp_found_all cm connections parents hpar with ⟨m, hfp, hkeys⟩
  have hmn : (m.map Prod.fst).Nodup := by rw [hkeys]; exact hnodup
  have hidm : id ∈ m.map Prod.fst := by
    rw [hkeys]
    exact List.mem_map_of_mem Prod.fst hmem
  rcases List.mem_map.mp hidm with ⟨q, hq, hq1⟩
  rcases fp_ok_keys cm connections parents m (by rw [hfp]) q hq with
    ⟨pr, hpr, hprk, c, hc, hu⟩
  have hpr_eq : pr = (id, p) :=
    pairs_eq_of_keys_nodup parents hnodup pr (id, p) hpr hmem (by rw [hprk, hq1])
  have hcpc : c = pc := by
    rw [hpr_eq] at hc
    rw [hc] at hpc
    exact Option.some.inj hpc
  have hqm : (id, pc.uuid) ∈ m := by
    have : q = (id, pc.uuid) := by
      apply Prod.ext
      · exact hq1
      · rw [← hu, hcpc]
    rwa [this] at hq
  have hmem_int : ∀ q0 ∈ m, ∃ c0 ∈ connections, c0.interface = some q0.1 := by
    intro q0 hq0
    have hk0 : q0.1 ∈ parents.map Prod.fst := by
      rw [← hkeys]
      exact List.mem_map_of_mem Prod.fst hq0
    rcases List.mem_map.mp hk0 with ⟨pr0, hpr0, hpr0k⟩
    rcases hchild pr0 hpr0 with ⟨c0, hc0, hi0⟩
    exact ⟨c0, hc0, by rw [hi0, hpr0k]⟩
  rcases sp_ok m connections hmem_int with ⟨conns2, hsp⟩
  refine ⟨conns2, ?_, ?_⟩
  · simp only [updateParentConnection, hfp, hsp]
  · have hex : ∃ c0 ∈ conns2, c0.interface = some id := by
      rcases hchild (id, p) hmem with ⟨c0, hc0, hi0⟩
      have hintf := sp_interfaces m connections conns2 hsp
      have : some id ∈ conns2.map (fun c2 => c2.interface) := by
        rw [hintf]
        exact List.mem_map.mpr ⟨c0, hc0, hi0⟩
      rcases List.mem_map.mp this with ⟨c2, hc2, hi2⟩
      exact ⟨c2, hc2, hi2⟩
    have hsome : (conns2.find? (fun c2 => c2.interface = some id)).isSome := by
      rw [List.find?_isSome]
      rcases hex with ⟨c0, hc0, hi0⟩
      exact ⟨c0, hc0, by simpa using hi0⟩
    rcases Option.isSome_iff_exists.mp hsome with ⟨c', hfind⟩
    exact ⟨c', hfind, sp_find_controller m connections conns2 id pc.uuid hmn hqm hsp c' hfind⟩

/-- C1, witness for the amended theorem at a concrete two-connection batch. -/
theorem resolver_second_pass_by_interface_witness :
    ∃ conns2, updateParentConnection false
        [{ id := "eth0", uuid := 1, interface := some "eth0" },
         { id := "bond0", uuid := 7, interface := some "bond0" }]
        [("eth0", "bond0")] = ([], PResult.ok conns2) ∧
      ∃ c', conns2.find? (fun c => c.interface = some "eth0") = some c' ∧
        c'.controller = some (7 : Nat) :=
  resolver_second_pass_by_interface false
    [{ id := "eth0", uuid := 1, interface := some "eth0" },
     { id := "bond0", uuid := 7, interface := some "bond0" }]
    [("eth0", "bond0")] "eth0" "bond0"
    { id := "bond0", uuid := 7, interface := some "bond0" }
    (by decide) (by decide)
    (by
      intro pr hpr
      simp only [List.mem_singleton] at hpr
      subst hpr
      exact ⟨_, List.mem_cons_self _ _, rfl⟩)
    (by decide) (by rfl)

/-- C2: missing-parent handling.  For a recorded child/parent pair whose
parent name is carried by no connection's `interface`: (a) under
`continue_migration = false` the run returns an error and never contacts
the adapter (so no network state is produced); (b) under
`continue_migration = true` resolution leaves the child connection (the
one carrying the child id as its `interface`) untouched — its controller
stays as the mapper left it — and the run completes. -/
theorem missing_parent_policy
    (connections : List Connection) (parents : List (String × String))
    (id p : String)
    (hmem : (id, p) ∈ parents)
    (hmissing : connections.find? (fun c => c.interface = some p) = none) :
    (∀ (toConn : Interface → Except String ConnectionResult) (adapter : Adapter)
       (interfaces : List Interface) (netconfig : Option Netconfig)
       (dry : Bool) (evs0 : List Event),
       mapPhase toConn false interfaces [] [] = (evs0, PResult.ok (connections, parents)) →
       ∃ evs e,
         migrateRun toConn { continue_migration := false, dry_run := dry }
           adapter interfaces netconfig = (evs, PResult.err e) ∧
         (∀ s, Event.adapterWrite s ∉ evs) ∧
         Event.adapterRead ∉ evs ∧ Event.adapterConnect ∉ evs)
    ∧ ((parents.map Prod.fst).Nodup →
       ∀ (evs2 : List Event) (conns2 : List Connection),
         updateParentConnection true connections parents = (evs2, PResult.ok conns2) →
         (∀ (j : Nat) (c0 : Connection), connections[j]? = some c0 →
            c0.interface = some id → conns2[j]? = some c0) ∧
         (∀ (toConn : Interface → Except String ConnectionResult) (adapter : Adapter)
            (interfaces : List Interface) (dry : Bool) (evs0 : List Event)
            (st : NetworkState),
            mapPhase toConn true interfaces [] [] = (evs0, PResult.ok (connections, parents)) →
            assemble conns2 = Except.ok st →
            adapter.connectResult = Except.ok () →
            (∀ s, adapter.writeResult s = Except.ok ()) →
            (migrateRun toConn { continue_migration := true, dry_run := dry }
              adapter interfaces none).2 = PResult.ok ())) := by
  constructor
  · intro toConn adapter interfaces netconfig dry evs0 hmp
    rcases fp_err_of_missing connections parents id p hmem hmissing with ⟨e, hfp⟩
    have hupc : updateParentConnection false connections parents =
        ((firstPass false connections parents).1, PResult.err e) := by
      simp only [updateParentConnection, hfp]
    have hevs0 : (mapPhase toConn false interfaces [] []).1 = evs0 := by rw [hmp]
    refine ⟨evs0 ++ (firstPass false connections parents).1, e, ?_, ?_, ?_, ?_⟩
    · simp only [migrateRun, hmp, hupc]
    · intro s hs
      rcases List.mem_append.mp hs with h1 | h1
      · rw [← hevs0] at h1
        rcases mp_events toConn false interfaces [] [] _ h1 with ⟨m0, hm0⟩
        cases hm0
      · rcases fp_events false connections parents _ h1 with ⟨m0, hm0⟩
        cases hm0
    · intro hs
      rcases List.mem_append.mp hs with h1 | h1
      · rw [← hevs0] at h1
        rcases mp_events toConn false interfaces [] [] _ h1 with ⟨m0, hm0⟩
        cases hm0
      · rcases fp_events false connections parents _ h1 with ⟨m0, hm0⟩
        cases hm0
    · intro hs
      rcases List.mem_append.mp hs with h1 | h1
      · rw [← hevs0] at h1
        rcases mp_events toConn false interfaces [] [] _ h1 with ⟨m0, hm0⟩
        cases hm0
      · rcases fp_events false connections parents _ h1 with ⟨m0, hm0⟩
        cases hm0
  · intro hnodup evs2 conns2 hupc
    rcases fp_true_ok connections parents with ⟨m, hfp⟩
    have hsp : secondPass connections m = PResult.ok conns2 := by
      simp only [updateParentConnection, hfp] at hupc
      exact congrArg Prod.snd hupc
    have hkeys_ne : ∀ q ∈ m, q.1 ≠ id := by
      intro q hq heq
      rcases fp_ok_keys true connections parents m hfp q hq with ⟨pr, hpr, hprk, c, hc, _⟩
      have hpr_eq : pr = (id, p) :=
        pairs_eq_of_keys_nodup parents hnodup pr (id, p) hpr hmem (by rw [hprk, heq])
      rw [hpr_eq] at hc
      rw [hmissing] at hc
      cases hc
    constructor
    · intro j c0 hj hi0
      exact sp_get_of_ne m connections conns2 hsp j c0 hj
        (fun q hq heq => hkeys_ne q hq (Option.some.inj (hi0.symm.trans heq)).symm)
    · intro toConn adapter interfaces dry evs0 st hmp hasm hconn hwrite
      simp only [migrateRun, hmp, hupc, hasm]
      cases dry with
      | true => simp
      | false => simp [migrateApply, hconn, hwrite]

/-- C2, witness: a single interface whose master names an absent parent;
strict mode errors without adapter contact, lenient mode completes and
leaves the connection untouched. -/
theorem missing_parent_policy_witness :
    (∃ evs e,
      migrateRun
        (fun i => Except.ok { connections := [{ id := i.name, uuid := 1, interface := some i.name }], warnings := [] })
        { continue_migration := false, dry_run := false } {}
        [{ name := "eth0", link := { master := some "bond9" } }] none = (evs, PResult.err e) ∧
      (∀ s, Event.adapterWrite s ∉ evs) ∧
      Event.adapterRead ∉ evs ∧ Event.adapterConnect ∉ evs) ∧
    (migrateRun
        (fun i => Except.ok { connections := [{ id := i.name, uuid := 1, interface := some i.name }], warnings := [] })
        { continue_migration := true, dry_run := true } {}
        [{ name := "eth0", link := { master := some "bond9" } }] none).2 = PResult.ok () ∧
    ([({ id := "eth0", uuid := 1, interface := some "eth0" } : Connection)])[0]? =
      some { id := "eth0", uuid := 1, interface := some "eth0" } := by
  have h := missing_parent_policy
    [{ id := "eth0", uuid := 1, interface := some "eth0" }]
    [("eth0", "bond9")] "eth0" "bond9"
    (List.mem_singleton.mpr rfl) (by rfl)
  have hb := h.2 (by decide)
    [Event.logWarn (missingParentWarnMsg "bond9" "eth0")]
    [{ id := "eth0", uuid := 1, interface := some "eth0" }]
    (by rfl)
  refine ⟨?_, ?_, ?_⟩
  · exact h.1
      (fun i => Except.ok { connections := [{ id := i.name, uuid := 1, interface := some i.name }], warnings := [] })
      {} [{ name := "eth0", link := { master := some "bond9" } }] none false [] (by rfl)
  · exact hb.2
      (fun i => Except.ok { connections := [{ id := i.name, uuid := 1, interface := some i.name }], warnings := [] })
      {} [{ name := "eth0", link := { master := some "bond9" } }] true []
      { connections := [{ id := "eth0", uuid := 1, interface := some "eth0" }] }
      (by rfl) (by rfl) (by rfl) (fun s => rfl)
  · exact hb.1 0 { id := "eth0", uuid := 1, interface := some "eth0" } (by rfl) (by rfl)

/-- C7: dry-run.  When `dry_run` is true and mapping, resolution and
assembly succeed, `migrate` logs every assembled connection, returns
success, and performs no call to the external adapter (no connect, no
read, no write), regardless of whether a `Netconfig` policy was
supplied. -/
theorem dry_run_no_adapter
    (toConn : Interface → Except String ConnectionResult) (adapter : Adapter)
    (interfaces : List Interface) (netconfig : Option Netconfig) (cm : Bool)
    (evs0 evs2 : List Event) (conns conns2 : List Connection)
    (prs : List (String × String)) (st : NetworkState)
    (hmp : mapPhase toConn cm interfaces [] [] = (evs0, PResult.ok (conns, prs)))
    (hupc : updateParentConnection cm conns prs = (evs2, PResult.ok conns2))
    (hasm : assemble conns2 = Except.ok st) :
    ∃ evs,
      migrateRun toConn { continue_migration := cm, dry_run := true }
        adapter interfaces netconfig = (evs, PResult.ok ()) ∧
      (∀ c ∈ st.connections, Event.logConn c ∈ evs) ∧
      (∀ s, Event.adapterWrite s ∉ evs) ∧
      Event.adapterRead ∉ evs ∧ Event.adapterConnect ∉ evs := by
  have hevs0 : (mapPhase toConn cm interfaces [] []).1 = evs0 := by rw [hmp]
  have hevs2 : (updateParentConnection cm conns prs).1 = evs2 := by rw [hupc]
  refine ⟨evs0 ++ evs2 ++ st.connections.map Event.logConn, ?_, ?_, ?_, ?_, ?_⟩
  · simp [migrateRun, hmp, hupc, hasm]
  · intro c hc
    exact List.mem_append.mpr (Or.inr (List.mem_map_of_mem Event.logConn hc))
  · intro s hs
    rcases List.mem_append.mp hs with h1 | h1
    · rcases List.mem_append.mp h1 with h2 | h2
      · rw [← hevs0] at h2
        rcases mp_events toConn cm interfaces [] [] _ h2 with ⟨m0, hm0⟩
        cases hm0
      · rw [← hevs2] at h2
        rcases upc_events cm conns prs _ h2 with ⟨m0, hm0⟩
        cases hm0
    · rcases List.mem_map.mp h1 with ⟨c, _, hc⟩
      cases hc
  · intro hs
    rcases List.mem_append.mp hs with h1 | h1
    · rcases List.mem_append.mp h1 with h2 | h2
      · rw [← hevs0] at h2
        rcases mp_events toConn cm interfaces [] [] _ h2 with ⟨m0, hm0⟩
        cases hm0
      · rw [← hevs2] at h2
        rcases upc_events cm conns prs _ h2 with ⟨m0, hm0⟩
        cases hm0
    · rcases List.mem_map.mp h1 with ⟨c, _, hc⟩
      cases hc
  · intro hs
    rcases List.mem_append.mp hs with h1 | h1
    · rcases List.mem_append.mp h1 with h2 | h2
      · rw [← hevs0] at h2
        rcases mp_events toConn cm interfaces [] [] _ h2 with ⟨m0, hm0⟩
        cases hm0
      · rw [← hevs2] at h2
        rcases upc_events cm conns prs _ h2 with ⟨m0, hm0⟩
        cases hm0
    · rcases List.mem_map.mp h1 with ⟨c, _, hc⟩
      cases hc

/-- C7, witness: a one-interface dry run with a policy supplied still logs
the assembled connection and its event list names no adapter call. -/
theorem dry_run_no_adapter_witness :
    ∃ evs,
      migrateRun
        (fun i => Except.ok { connections := [{ id := i.name, uuid := 4, interface := some i.name }], warnings := [] })
        { continue_migration := false, dry_run := true } {}
        [{ name := "eth3" }] (some { staticDnsServers := Except.ok [] }) = (evs, PResult.ok ()) ∧
      (∀ c ∈ ({ connections := [{ id := "eth3", uuid := 4, interface := some "eth3" }] } : NetworkState).connections,
        Event.logConn c ∈ evs) ∧
      (∀ s, Event.adapterWrite s ∉ evs) ∧
      Event.adapterRead ∉ evs ∧ Event.adapterConnect ∉ evs :=
  dry_run_no_adapter
    (fun i => Except.ok { connections := [{ id := i.name, uuid := 4, interface := some i.name }], warnings := [] })
    {} [{ name := "eth3" }] (some { staticDnsServers := Except.ok [] }) false
    [] [] [{ id := "eth3", uuid := 4, interface := some "eth3" }]
    [{ id := "eth3", uuid := 4, interface := some "eth3" }] []
    { connections := [{ id := "eth3", uuid := 4, interface := some "eth3" }] }
    (by rfl) (by rfl) (by rfl)

theorem mp_no_panic (toConn : Interface → Except String ConnectionResult) (cm : Bool) :
    ∀ (ifcs : List Interface) (conns : List Connection) (prs : List (String × String)),
      (∀ i ∈ ifcs, ∀ r, toConn i = Except.ok r → r.warnings ≠ [] → r.connections ≠ []) →
      (mapPhase toConn cm ifcs conns prs).2 ≠ PResult.panic := by
  intro ifcs
  induction ifcs with
  | nil => intro conns prs _; simp [mapPhase]
  | cons i rest ih =>
    intro conns prs hgood
    simp only [mapPhase]
    cases htc : toConn i with
    | error e => simp
    | ok r =>
      simp only
      by_cases hw : r.warnings.isEmpty = false ∧ cm = false
      · rw [if_pos hw]
        have hwne : r.warnings ≠ [] := by
          intro hnil
          rw [hnil] at hw
          simp at hw
        have hcne := hgood i (List.mem_cons_self _ _) r htc hwne
        cases hc : r.connections with
        | nil => exact absurd hc hcne
        | cons c cs => simp
      · rw [if_neg hw]
        simp only
        exact ih _ _ (fun i0 h0 => hgood i0 (List.mem_cons_of_mem _ h0))

theorem upc_no_panic (cm : Bool) (conns : List Connection) (prs : List (String × String)) :
    (updateParentConnection cm conns prs).2 ≠ PResult.panic := by
  simp only [updateParentConnection]
  cases hfp : (firstPass cm conns prs).2 with
  | ok m => exact sp_no_panic m conns
  | err e => simp
  | panic => exact absurd hfp (fp_no_panic cm conns prs)

theorem mdp_no_panic (cm : Bool) (nc : Netconfig) (current st : NetworkState) :
    (mergeDnsPolicy cm nc current st).2 ≠ PResult.panic := by
  simp only [mergeDnsPolicy]
  cases hns : nc.staticDnsServers with
  | ok ns =>
    simp only
    cases add_connection st _ with
    | error e => simp
    | ok st2 => simp
  | error e =>
    cases cm with
    | true =>
      simp only [if_true]
      cases add_connection st _ with
      | error e2 => simp
      | ok st2 => simp
    | false => simp

theorem migrateApply_no_panic (settings : Settings) (adapter : Adapter)
    (netconfig : Option Netconfig) (st : NetworkState) :
    (migrateApply settings adapter netconfig st).2 ≠ PResult.panic := by
  simp only [migrateApply]
  split
  · simp
  · split
    · split
      · simp
      · simp
    · rename_i nc
      split
      · simp
      · rename_i current heq
        have h5 := mdp_no_panic settings.continue_migration nc current st
        split
        · simp
        · rename_i heq5
          exact absurd heq5 h5
        · split
          · simp
          · simp

/-- C9: the abort-on-warning path of `migrate` indexes
`connection_result.connections[0]`.  That access is in bounds — and
`migrate` cannot panic — exactly under the precondition that every mapper
result carrying warnings also carries at least one connection; for an
input whose mapping yields a warning but zero connections under
`continue_migration = false`, `migrate` panics instead of returning an
error. -/
theorem warning_abort_empty_connections :
    (∀ (toConn : Interface → Except String ConnectionResult) (settings : Settings)
       (adapter : Adapter) (interfaces : List Interface) (netconfig : Option Netconfig),
       (∀ i ∈ interfaces, ∀ r, toConn i = Except.ok r → r.warnings ≠ [] → r.connections ≠ []) →
       (migrateRun toConn settings adapter interfaces netconfig).2 ≠ PResult.panic)
    ∧ (migrateRun (fun _ => Except.ok { connections := [], warnings := ["unhandled field"] })
        { continue_migration := false, dry_run := false } {}
        [{ name := "eth1" }] none).2 = PResult.panic := by
  constructor
  · intro toConn settings adapter interfaces netconfig hgood
    have h1 := mp_no_panic toConn settings.continue_migration interfaces [] [] hgood
    simp only [migrateRun]
    split
    · simp
    · rename_i evs heq
      have h2 : (mapPhase toConn settings.continue_migration interfaces [] []).2 = PResult.panic := by
        rw [heq]
      exact absurd h2 h1
    · rename_i evs connections parents heq
      have h3 := upc_no_panic settings.continue_migration connections parents
      split
      · simp
      · rename_i evs2 heq2
        have h4 : (updateParentConnection settings.continue_migration connections parents).2 =
            PResult.panic := by rw [heq2]
        exact absurd h4 h3
      · rename_i evs2 conns2 heq2
        split
        · simp
        · rename_i st heq3
          split
          · simp
          · exact migrateApply_no_panic settings adapter netconfig st
  · rfl

/-- C9, witness: a well-behaved mapper (warnings always accompanied by a
connection) never drives `migrate` into the panic outcome. -/
theorem warning_abort_empty_connections_witness :
    (migrateRun
      (fun i => Except.ok { connections := [{ id := i.name, uuid := 1, interface := some i.name }], warnings := ["w"] })
      { continue_migration := true, dry_run := true } {}
      [{ name := "eth2" }] none).2 ≠ PResult.panic :=
  warning_abort_empty_connections.1
    (fun i => Except.ok { connections := [{ id := i.name, uuid := 1, interface := some i.name }], warnings := ["w"] })
    { continue_migration := true, dry_run := true } {} [{ name := "eth2" }] none
    (by
      intro i hi r hr hw
      injection hr with h
      rw [← h]
      simp)

theorem mdp_events (cm : Bool) (nc : Netconfig) (current st : NetworkState) :
    ∀ ev ∈ (mergeDnsPolicy cm nc current st).1, ∃ s, ev = Event.logWarn s := by
  intro ev hev
  simp only [mergeDnsPolicy] at hev
  cases hns : nc.staticDnsServers with
  | ok ns =>
    rw [hns] at hev
    simp only at hev
    split at hev <;> simp at hev
  | error e =>
    rw [hns] at hev
    cases cm with
    | true =>
      simp only [if_true] at hev
      split at hev <;>
        (simp only [List.mem_singleton] at hev; exact ⟨_, hev⟩)
    | false => simp at hev

theorem no_write_mem (l : List Event) (hl : ∀ ev ∈ l, ∃ m, ev = Event.logWarn m)
    (s : NetworkState) : Event.adapterWrite s ∉ l := by
  intro h
  rcases hl _ h with ⟨m, hm⟩
  cases hm


theorem migrateApply_write_inv (settings : Settings) (adapter : Adapter)
    (netconfig : Option Netconfig) (st : NetworkState) (s : NetworkState)
    (hw : Event.adapterWrite s ∈ (migrateApply settings adapter netconfig st).1) :
    (netconfig = none ∧ s = st) ∨
    (∃ nc current evsM, netconfig = some nc ∧ adapter.readResult = Except.ok current ∧
      mergeDnsPolicy settings.continue_migration nc current st = (evsM, PResult.ok s)) := by
  simp only [migrateApply] at hw
  cases hcn : adapter.connectResult with
  | error e =>
    rw [hcn] at hw
    simp at hw
  | ok a =>
    rw [hcn] at hw
    simp only at hw
    cases netconfig with
    | none =>
      left
      refine ⟨rfl, ?_⟩
      cases hwr : adapter.writeResult st with
      | ok u =>
        rw [hwr] at hw
        simp at hw
        exact hw
      | error e =>
        rw [hwr] at hw
        simp at hw
        exact hw
    | some nc =>
      right
      cases hrd : adapter.readResult with
      | error e =>
        rw [hrd] at hw
        simp at hw
      | ok current =>
        rw [hrd] at hw
        simp only at hw
        have hmde := mdp_events settings.continue_migration nc current st
        cases hmd : (mergeDnsPolicy settings.continue_migration nc current st).2 with
        | err e =>
          rw [hmd] at hw
          simp only [List.mem_cons] at hw
          rcases hw with h1 | h1
          · cases h1
          · rcases h1 with h2 | h2
            · cases h2
            · exfalso
              rcases hmde _ h2 with ⟨m, hm⟩
              cases hm
        | panic =>
          rw [hmd] at hw
          simp only [List.mem_cons] at hw
          rcases hw with h1 | h1
          · cases h1
          · rcases h1 with h2 | h2
            · cases h2
            · exfalso
              rcases hmde _ h2 with ⟨m, hm⟩
              cases hm
        | ok state4 =>
          rw [hmd] at hw
          simp only at hw
          have hsval : s = state4 := by
            cases hwr : adapter.writeResult state4 with
            | ok u =>
              rw [hwr] at hw
              simp only [List.mem_cons, List.mem_append, List.mem_singleton] at hw
              rcases hw with h1 | h1
              · cases h1
              · rcases h1 with h2 | h2
                · cases h2
                · rcases h2 with h3 | h3
                  · exfalso
                    rcases hmde _ h3 with ⟨m, hm⟩
                    cases hm
                  · rcases h3 with h4 | h4
                    · exact Event.adapterWrite.inj h4
                    · cases h4
            | error e =>
              rw [hwr] at hw
              simp only [List.mem_cons, List.mem_append, List.mem_singleton] at hw
              rcases hw with h1 | h1
              · cases h1
              · rcases h1 with h2 | h2
                · cases h2
                · rcases h2 with h3 | h3
                  · exfalso
                    rcases hmde _ h3 with ⟨m, hm⟩
                    cases hm
                  · rcases h3 with h4 | h4
                    · exact Event.adapterWrite.inj h4
                    · cases h4
          refine ⟨nc, current,
            (mergeDnsPolicy settings.continue_migration nc current st).1, rfl, rfl, ?_⟩
          apply Prod.ext
          · rfl
          · rw [← hsval] at hmd
            exact hmd

theorem migrate_write_inv
    (toConn : Interface → Except String ConnectionResult) (settings : Settings)
    (adapter : Adapter) (interfaces : List Interface) (netconfig : Option Netconfig)
    (s : NetworkState)
    (hw : Event.adapterWrite s ∈ (migrateRun toConn settings adapter interfaces netconfig).1) :
    ∃ evs0 evs2 conns prs conns2 st,
      mapPhase toConn settings.continue_migration interfaces [] [] =
        (evs0, PResult.ok (conns, prs)) ∧
      updateParentConnection settings.continue_migration conns prs =
        (evs2, PResult.ok conns2) ∧
      assemble conns2 = Except.ok st ∧
      settings.dry_run = false ∧
      ((netconfig = none ∧ s = st) ∨
       (∃ nc current evsM,
         netconfig = some nc ∧
         adapter.readResult = Except.ok current ∧
         mergeDnsPolicy settings.continue_migration nc current st = (evsM, PResult.ok s))) := by
  have hmpe := mp_events toConn settings.continue_migration interfaces [] []
  simp only [migrateRun] at hw
  split at hw
  · rename_i evs e heq
    exact absurd hw (no_write_mem evs (fun ev hev => hmpe ev (by rw [heq]; exact hev)) s)
  · rename_i evs heq
    exact absurd hw (no_write_mem evs (fun ev hev => hmpe ev (by rw [heq]; exact hev)) s)
  · rename_i evs conns prs heq
    have hmpe2 : ∀ ev ∈ evs, ∃ m, ev = Event.logWarn m :=
      fun ev hev => hmpe ev (by rw [heq]; exact hev)
    have hupe := upc_events settings.continue_migration conns prs
    split at hw
    · rename_i evs2 e heq2
      rcases List.mem_append.mp hw with h1 | h1
      · exact absurd h1 (no_write_mem evs hmpe2 s)
      · exact absurd h1
          (no_write_mem evs2 (fun ev hev => hupe ev (by rw [heq2]; exact hev)) s)
    · rename_i evs2 heq2
      rcases List.mem_append.mp hw with h1 | h1
      · exact absurd h1 (no_write_mem evs hmpe2 s)
      · exact absurd h1
          (no_write_mem evs2 (fun ev hev => hupe ev (by rw [heq2]; exact hev)) s)
    · rename_i evs2 conns2 heq2
      have hupe2 : ∀ ev ∈ evs2, ∃ m, ev = Event.logWarn m :=
        fun ev hev => hupe ev (by rw [heq2]; exact hev)
      split at hw
      · rename_i e heq3
        rcases List.mem_append.mp hw with h1 | h1
        · exact absurd h1 (no_write_mem evs hmpe2 s)
        · exact absurd h1 (no_write_mem evs2 hupe2 s)
      · rename_i st heq3
        split at hw
        · exfalso
          rcases List.mem_append.mp hw with h1 | h1
          · rcases List.mem_append.mp h1 with h2 | h2
            · exact absurd h2 (no_write_mem evs hmpe2 s)
            · exact absurd h2 (no_write_mem evs2 hupe2 s)
          · rcases List.mem_map.mp h1 with ⟨c, _, hc⟩
            cases hc
        · rename_i hdry
          have hdryf : settings.dry_run = false := by
            revert hdry
            cases settings.dry_run <;> simp
          refine ⟨evs, evs2, conns, prs, conns2, st, heq, heq2, heq3, hdryf, ?_⟩
          rcases List.mem_append.mp hw with h1 | h1
          · exfalso
            rcases List.mem_append.mp h1 with h2 | h2
            · exact absurd h2 (no_write_mem evs hmpe2 s)
            · exact absurd h2 (no_write_mem evs2 hupe2 s)
          · exact migrateApply_write_inv settings adapter netconfig st s h1

theorem mdp_ok_shape (cm : Bool) (nc : Netconfig) (current st : NetworkState)
    (evsM : List Event) (s4 : NetworkState)
    (h : mergeDnsPolicy cm nc current st = (evsM, PResult.ok s4)) :
    ∃ ns state2,
      add_connection st (mdp_loopback nc current ns) = Except.ok state2 ∧
      s4 = { connections := set_ignore_auto_dns (apply_dns_policy nc state2).connections } ∧
      (nc.staticDnsServers = Except.ok ns ∨ (cm = true ∧ ns = [])) := by
  simp only [mergeDnsPolicy] at h
  cases hns : nc.staticDnsServers with
  | ok ns0 =>
    rw [hns] at h
    simp only at h
    cases hadd : add_connection st (mdp_loopback nc current ns0) with
    | error e =>
      rw [hadd] at h
      simp at h
    | ok state2 =>
      rw [hadd] at h
      simp only [Prod.mk.injEq, PResult.ok.injEq] at h
      exact ⟨ns0, state2, hadd, h.2.symm, Or.inl rfl⟩
  | error e =>
    rw [hns] at h
    cases cm with
    | false => simp at h
    | true =>
      simp only [if_true] at h
      cases hadd : add_connection st (mdp_loopback nc current []) with
      | error e2 =>
        rw [hadd] at h
        simp at h
      | ok state2 =>
        rw [hadd] at h
        simp only [Prod.mk.injEq, PResult.ok.injEq] at h
        exact ⟨[], state2, hadd, h.2.symm, Or.inr ⟨rfl, rfl⟩⟩

theorem add_connection_ok_inv (st : NetworkState) (c : Connection) (st2 : NetworkState)
    (h : add_connection st c = Except.ok st2) :
    st.connections.any (fun c2 => c2.id = c.id) = false ∧
    st2.connections = st.connections ++ [c] := by
  simp only [add_connection] at h
  by_cases hd : st.connections.any (fun c2 => c2.id = c.id)
  · rw [if_pos hd] at h
    cases h
  · rw [if_neg hd] at h
    cases h
    exact ⟨Bool.eq_false_iff.mpr hd, rfl⟩

theorem add_connection_ok_of_absent (st : NetworkState) (c : Connection)
    (h : ∀ c2 ∈ st.connections, c2.id ≠ c.id) :
    add_connection st c = Except.ok { connections := st.connections ++ [c] } := by
  simp only [add_connection]
  rw [if_neg]
  simp only [List.any_eq_true, not_exists]
  intro c2
  intro hc
  rcases hc with ⟨hmem, heq⟩
  exact h c2 hmem (by simpa using heq)

theorem adp_conn_id (nc : Netconfig) (c : Connection) :
    (apply_dns_policy_conn nc c).id = c.id := by
  simp only [apply_dns_policy_conn]
  split <;> rfl

theorem adp_conn_lo (nc : Netconfig) (c : Connection) (h : c.id = "lo") :
    apply_dns_policy_conn nc c = c := by
  simp [apply_dns_policy_conn, h]

theorem si_conn_id (c : Connection) : (set_ignore_auto_dns_conn c).id = c.id := by
  simp only [set_ignore_auto_dns_conn]
  split <;> rfl

theorem si_conn_lo (c : Connection) (h : c.id = "lo") :
    set_ignore_auto_dns_conn c = c := by
  simp [set_ignore_auto_dns_conn, h]

theorem si_conn_keep (c : Connection)
    (h : c.ip_config.dns_priority4 ≠ none ∨ c.ip_config.dns_priority6 ≠ none) :
    set_ignore_auto_dns_conn c = c := by
  simp only [set_ignore_auto_dns_conn]
  rw [if_neg]
  intro hcond
  rcases h with h1 | h1
  · exact h1 hcond.2.1
  · exact h1 hcond.2.2

theorem si_flag (l : List Connection) :
    ∀ c ∈ set_ignore_auto_dns l, c.id ≠ "lo" → c.ip_config.dns_priority4 = none →
      c.ip_config.dns_priority6 = none → c.ip_config.ignore_auto_dns = true := by
  intro c hc h1 h2 h3
  rcases List.mem_map.mp hc with ⟨c0, _, hce⟩
  rw [← hce] at h1 h2 h3 ⊢
  simp only [set_ignore_auto_dns_conn] at h1 h2 h3 ⊢
  by_cases hcond : c0.id ≠ "lo" ∧ c0.ip_config.dns_priority4 = none ∧
      c0.ip_config.dns_priority6 = none
  · rw [if_pos hcond]
  · rw [if_neg hcond] at h1 h2 h3 ⊢
    exact absurd ⟨h1, h2, h3⟩ hcond

theorem count_lo_map (f : Connection → Connection) (hf : ∀ c, (f c).id = c.id)
    (l : List Connection) :
    (l.map f).countP (fun c => c.id = "lo") = l.countP (fun c => c.id = "lo") := by
  rw [List.countP_map]
  apply List.countP_congr
  intro c _
  simp [Function.comp, hf c]

theorem map_lo_mem (f : Connection → Connection) (hf_id : ∀ c, (f c).id = c.id)
    (hf_lo : ∀ c, c.id = "lo" → f c = c) (l : List Connection) :
    ∀ c ∈ l.map f, c.id = "lo" → c ∈ l := by
  intro c hc hlo
  rcases List.mem_map.mp hc with ⟨c0, hc0, hce⟩
  have h0 : c0.id = "lo" := by
    rw [← hf_id c0, hce, hlo]
  rw [← hce, hf_lo c0 h0]
  exact hc0

theorem mdp_loopback0_id (current : NetworkState) : (mdp_loopback0 current).id = "lo" := by
  simp only [mdp_loopback0]
  cases hg : get_connection current "lo" with
  | some lo =>
    have := List.find?_some hg
    simpa using this
  | none => rfl

theorem mdp_loopback_id (nc : Netconfig) (current : NetworkState) (ns : List String) :
    (mdp_loopback nc current ns).id = "lo" := by
  simp only [mdp_loopback]
  cases nc.static_dns_searchlist with
  | some sl => exact mdp_loopback0_id current
  | none => exact mdp_loopback0_id current

theorem mdp_loopback_ns (nc : Netconfig) (current : NetworkState) (ns : List String) :
    (mdp_loopback nc current ns).ip_config.nameservers = ns := by
  simp only [mdp_loopback]
  cases nc.static_dns_searchlist with
  | some sl => rfl
  | none => rfl

theorem mdp_loopback_fields (nc : Netconfig) (current : NetworkState) (ns : List String)
    (h : get_connection current "lo" = none) :
    (mdp_loopback nc current ns).ip_config.method4 = Ipv4Method.manual ∧
    (mdp_loopback nc current ns).ip_config.method6 = Ipv6Method.manual ∧
    (mdp_loopback nc current ns).ip_config.addresses = ["127.0.0.1/8", "::1/128"] ∧
    (mdp_loopback nc current ns).config = ConnectionConfig.loopback := by
  simp only [mdp_loopback, mdp_loopback0, h]
  cases nc.static_dns_searchlist with
  | some sl => exact ⟨rfl, rfl, rfl, rfl⟩
  | none => exact ⟨rfl, rfl, rfl, rfl⟩

/-- C3: loopback synthesis.  When a `Netconfig` policy is supplied and the
state read from the adapter has no connection with id "lo", any state
handed to the adapter's write operation contains exactly one loopback
connection, and it has manual IPv4/IPv6 methods, exactly the addresses
127.0.0.1/8 and ::1/128, and the loopback config variant. -/
theorem loopback_synthesis
    (toConn : Interface → Except String ConnectionResult) (settings : Settings)
    (adapter : Adapter) (interfaces : List Interface) (nc : Netconfig)
    (current : NetworkState) (s : NetworkState)
    (hread : adapter.readResult = Except.ok current)
    (hnolo : get_connection current "lo" = none)
    (hw : Event.adapterWrite s ∈ (migrateRun toConn settings adapter interfaces (some nc)).1) :
    s.connections.countP (fun c => c.id = "lo") = 1 ∧
    ∀ c ∈ s.connections, c.id = "lo" →
      c.ip_config.method4 = Ipv4Method.manual ∧
      c.ip_config.method6 = Ipv6Method.manual ∧
      c.ip_config.addresses = ["127.0.0.1/8", "::1/128"] ∧
      c.config = ConnectionConfig.loopback := by
  rcases migrate_write_inv toConn settings adapter interfaces (some nc) s hw with
    ⟨evs0, evs2, conns, prs, conns2, st, hmp, hupc, hasm, hdry, hbranch⟩
  rcases hbranch with ⟨hnone, _⟩ | ⟨nc', current', evsM, hsome, hread', hmd⟩
  · cases hnone
  · cases Option.some.inj hsome
    rw [hread] at hread'
    cases Except.ok.inj hread'
    rcases mdp_ok_shape settings.continue_migration nc current st evsM s hmd with
      ⟨ns, state2, hadd, hs4, _⟩
    rcases add_connection_ok_inv st (mdp_loopback nc current ns) state2 hadd with
      ⟨hany, hstate2⟩
    have hstno : ∀ c ∈ st.connections, ¬(c.id = "lo") := by
      intro c hc heq
      have h1 := List.any_eq_false.mp hany c hc
      rw [mdp_loopback_id] at h1
      simp [heq] at h1
    have hconnseq : s.connections =
        set_ignore_auto_dns (apply_dns_policy nc state2).connections := by
      rw [hs4]
    constructor
    · rw [hconnseq]
      simp only [set_ignore_auto_dns, apply_dns_policy]
      rw [count_lo_map set_ignore_auto_dns_conn si_conn_id,
          count_lo_map (apply_dns_policy_conn nc) (adp_conn_id nc)]
      rw [hstate2]
      rw [List.countP_append]
      have hz : st.connections.countP (fun c => c.id = "lo") = 0 := by
        rw [List.countP_eq_zero]
        intro c hc
        simpa using hstno c hc
      rw [hz]
      simp [List.countP_cons, mdp_loopback_id]
    · intro c hc hlo
      rw [hconnseq] at hc
      simp only [set_ignore_auto_dns, apply_dns_policy] at hc
      have hc2 := map_lo_mem set_ignore_auto_dns_conn si_conn_id si_conn_lo _ c hc hlo
      have hc3 := map_lo_mem (apply_dns_policy_conn nc) (adp_conn_id nc) (adp_conn_lo nc)
        _ c hc2 hlo
      rw [hstate2] at hc3
      rcases List.mem_append.mp hc3 with h1 | h1
      · exact absurd hlo (hstno c h1)
      · have hceq : c = mdp_loopback nc current ns := by
          simpa using h1
        rw [hceq]
        exact mdp_loopback_fields nc current ns hnolo

/-- C3, witness: one ethernet interface plus a policy over an empty live
state; the written state carries exactly one canonical loopback. -/
theorem loopback_synthesis_witness :
    ({ connections := [
        { id := "eth0", uuid := 5, interface := some "eth0",
          ip_config := { ignore_auto_dns := true } },
        { id := "lo", interface := some "lo",
          ip_config := { method4 := .manual, method6 := .manual,
                         addresses := ["127.0.0.1/8", "::1/128"],
                         nameservers := ["192.168.1.1"] },
          config := .loopback } ] } : NetworkState).connections.countP
        (fun c => c.id = "lo") = 1 ∧
    ∀ c ∈ ({ connections := [
        { id := "eth0", uuid := 5, interface := some "eth0",
          ip_config := { ignore_auto_dns := true } },
        { id := "lo", interface := some "lo",
          ip_config := { method4 := .manual, method6 := .manual,
                         addresses := ["127.0.0.1/8", "::1/128"],
                         nameservers := ["192.168.1.1"] },
          config := .loopback } ] } : NetworkState).connections, c.id = "lo" →
      c.ip_config.method4 = Ipv4Method.manual ∧
      c.ip_config.method6 = Ipv6Method.manual ∧
      c.ip_config.addresses = ["127.0.0.1/8", "::1/128"] ∧
      c.config = ConnectionConfig.loopback :=
  loopback_synthesis
    (fun i => Except.ok { connections := [{ id := i.name, uuid := 5, interface := some i.name }], warnings := [] })
    { continue_migration := false, dry_run := false } {}
    [{ name := "eth0" }] { staticDnsServers := Except.ok ["192.168.1.1"] } {}
    { connections := [
        { id := "eth0", uuid := 5, interface := some "eth0",
          ip_config := { ignore_auto_dns := true } },
        { id := "lo", interface := some "lo",
          ip_config := { method4 := .manual, method6 := .manual,
                         addresses := ["127.0.0.1/8", "::1/128"],
                         nameservers := ["192.168.1.1"] },
          config := .loopback } ] }
    (by rfl) (by rfl) (by decide)

/-- C4: `ignore_auto_dns` defaulting.  (1) With a policy supplied, every
connection in a written state whose id is not "lo" and which carries no
DNS priority for either protocol has `ignore_auto_dns = true`; (2) the
defaulting step leaves any connection that received a DNS priority for at
least one protocol completely untouched; (3) with no policy supplied the
written state is exactly the assembled resolver output — no connection's
DNS fields are modified. -/
theorem ignore_auto_dns_default :
    (∀ (toConn : Interface → Except String ConnectionResult) (settings : Settings)
       (adapter : Adapter) (interfaces : List Interface) (nc : Netconfig) (s : NetworkState),
       Event.adapterWrite s ∈ (migrateRun toConn settings adapter interfaces (some nc)).1 →
       ∀ c ∈ s.connections, c.id ≠ "lo" → c.ip_config.dns_priority4 = none →
         c.ip_config.dns_priority6 = none → c.ip_config.ignore_auto_dns = true)
    ∧ (∀ c : Connection,
       c.ip_config.dns_priority4 ≠ none ∨ c.ip_config.dns_priority6 ≠ none →
       set_ignore_auto_dns_conn c = c)
    ∧ (∀ (toConn : Interface → Except String ConnectionResult) (settings : Settings)
       (adapter : Adapter) (interfaces : List Interface) (s : NetworkState),
       Event.adapterWrite s ∈ (migrateRun toConn settings adapter interfaces none).1 →
       ∃ evs0 evs2 conns prs conns2,
         mapPhase toConn settings.continue_migration interfaces [] [] =
           (evs0, PResult.ok (conns, prs)) ∧
         updateParentConnection settings.continue_migration conns prs =
           (evs2, PResult.ok conns2) ∧
         s.connections = conns2) := by
  refine ⟨?_, ?_, ?_⟩
  · intro toConn settings adapter interfaces nc s hw c hc hid h4 h6
    rcases migrate_write_inv toConn settings adapter interfaces (some nc) s hw with
      ⟨evs0, evs2, conns, prs, conns2, st, hmp, hupc, hasm, hdry, hbranch⟩
    rcases hbranch with ⟨hnone, _⟩ | ⟨nc', current', evsM, hsome, hread', hmd⟩
    · cases hnone
    · rcases mdp_ok_shape settings.continue_migration nc' current' st evsM s hmd with
        ⟨ns, state2, hadd, hs4, _⟩
      rw [hs4] at hc
      exact si_flag _ c hc hid h4 h6
  · intro c h
    exact si_conn_keep c h
  · intro toConn settings adapter interfaces s hw
    rcases migrate_write_inv toConn settings adapter interfaces none s hw with
      ⟨evs0, evs2, conns, prs, conns2, st, hmp, hupc, hasm, hdry, hbranch⟩
    rcases hbranch with ⟨_, hs⟩ | ⟨nc', current', evsM, hsome, _, _⟩
    · refine ⟨evs0, evs2, conns, prs, conns2, hmp, hupc, ?_⟩
      rw [hs]
      exact assemble_ok_connections conns2 st hasm
    · cases hsome

/-- C4, witness: the concrete run of the loopback witness exercises the
defaulting, the untouched-when-prioritized step, and the skipped merger. -/
theorem ignore_auto_dns_default_witness :
    (∀ c ∈ ({ connections := [
        { id := "eth0", uuid := 5, interface := some "eth0",
          ip_config := { ignore_auto_dns := true } },
        { id := "lo", interface := some "lo",
          ip_config := { method4 := .manual, method6 := .manual,
                         addresses := ["127.0.0.1/8", "::1/128"],
                         nameservers := ["192.168.1.1"] },
          config := .loopback } ] } : NetworkState).connections,
      c.id ≠ "lo" → c.ip_config.dns_priority4 = none →
      c.ip_config.dns_priority6 = none → c.ip_config.ignore_auto_dns = true) ∧
    set_ignore_auto_dns_conn
      { id := "eth1", ip_config := { dns_priority4 := some 5 } } =
      { id := "eth1", ip_config := { dns_priority4 := some 5 } } ∧
    (∃ evs0 evs2 conns prs conns2,
      mapPhase
        (fun i => Except.ok { connections := [{ id := i.name, uuid := 5, interface := some i.name }], warnings := [] })
        false [{ name := "eth0" }] [] [] = (evs0, PResult.ok (conns, prs)) ∧
      updateParentConnection false conns prs = (evs2, PResult.ok conns2) ∧
      ({ connections := [{ id := "eth0", uuid := 5, interface := some "eth0" }] } :
        NetworkState).connections = conns2) := by
  refine ⟨?_, ?_, ?_⟩
  · exact ignore_auto_dns_default.1
      (fun i => Except.ok { connections := [{ id := i.name, uuid := 5, interface := some i.name }], warnings := [] })
      { continue_migration := false, dry_run := false } {}
      [{ name := "eth0" }] { staticDnsServers := Except.ok ["192.168.1.1"] }
      { connections := [
        { id := "eth0", uuid := 5, interface := some "eth0",
          ip_config := { ignore_auto_dns := true } },
        { id := "lo", interface := some "lo",
          ip_config := { method4 := .manual, method6 := .manual,
                         addresses := ["127.0.0.1/8", "::1/128"],
                         nameservers := ["192.168.1.1"] },
          config := .loopback } ] }
      (by decide)
  · exact ignore_auto_dns_default.2.1
      { id := "eth1", ip_config := { dns_priority4 := some 5 } }
      (Or.inl (by simp))
  · exact ignore_auto_dns_default.2.2
      (fun i => Except.ok { connections := [{ id := i.name, uuid := 5, interface := some i.name }], warnings := [] })
      { continue_migration := false, dry_run := false } {}
      [{ name := "eth0" }]
      { connections := [{ id := "eth0", uuid := 5, interface := some "eth0" }] }
      (by decide)

theorem mdp_err_strict (nc : Netconfig) (e : String) (current st : NetworkState)
    (hns : nc.staticDnsServers = Except.error e) :
    mergeDnsPolicy false nc current st =
      ([], PResult.err (staticDnsErrMsg e ++ ", use the `--continue-migration` flag to ignore")) := by
  simp [mergeDnsPolicy, hns]

theorem mdp_lenient_shape (nc : Netconfig) (e : String) (current st : NetworkState)
    (hns : nc.staticDnsServers = Except.error e)
    (hnolo : ∀ c ∈ st.connections, c.id ≠ "lo") :
    mergeDnsPolicy true nc current st =
      ([Event.logWarn (staticDnsErrMsg e)],
       PResult.ok
         { connections :=
             set_ignore_auto_dns
               (apply_dns_policy nc
                 { connections :=
                     st.connections ++ [mdp_loopback nc current []] }).connections }) := by
  have hadd := add_connection_ok_of_absent st (mdp_loopback nc current [])
    (fun c2 hc2 => by rw [mdp_loopback_id]; exact hnolo c2 hc2)
  simp only [mergeDnsPolicy, hns, if_true]
  rw [hadd]

/-- C5: static-nameserver parse failure.  (1) Strict mode: the merge step
fails with the parse-failure error; at migrate level the run (with all
earlier stages succeeding) returns that error and never reaches the write
call.  (2) Lenient mode: the failure is logged as a warning, the loopback
is inserted with the EMPTY nameserver list (never a partial one), and the
run proceeds to a successful write. -/
theorem static_dns_parse_failure (nc : Netconfig) (e : String)
    (hns : nc.staticDnsServers = Except.error e) :
    (∀ current st : NetworkState,
       mergeDnsPolicy false nc current st =
         ([], PResult.err (staticDnsErrMsg e ++ ", use the `--continue-migration` flag to ignore"))) ∧
    (∀ (current st : NetworkState) (evsM : List Event) (s4 : NetworkState),
       mergeDnsPolicy true nc current st = (evsM, PResult.ok s4) →
       evsM = [Event.logWarn (staticDnsErrMsg e)] ∧
       ∀ c ∈ s4.connections, c.id = "lo" → c.ip_config.nameservers = []) ∧
    (∀ (toConn : Interface → Except String ConnectionResult) (adapter : Adapter)
       (interfaces : List Interface) (evs0 evs2 : List Event)
       (conns conns2 : List Connection) (prs : List (String × String))
       (st current : NetworkState),
       mapPhase toConn false interfaces [] [] = (evs0, PResult.ok (conns, prs)) →
       updateParentConnection false conns prs = (evs2, PResult.ok conns2) →
       assemble conns2 = Except.ok st →
       adapter.connectResult = Except.ok () →
       adapter.readResult = Except.ok current →
       (migrateRun toConn { continue_migration := false, dry_run := false }
           adapter interfaces (some nc)).2 =
         PResult.err (staticDnsErrMsg e ++ ", use the `--continue-migration` flag to ignore") ∧
       (∀ s, Event.adapterWrite s ∉
         (migrateRun toConn { continue_migration := false, dry_run := false }
           adapter interfaces (some nc)).1)) ∧
    (∀ (toConn : Interface → Except String ConnectionResult) (adapter : Adapter)
       (interfaces : List Interface) (evs0 evs2 : List Event)
       (conns conns2 : List Connection) (prs : List (String × String))
       (st current : NetworkState),
       mapPhase toConn true interfaces [] [] = (evs0, PResult.ok (conns, prs)) →
       updateParentConnection true conns prs = (evs2, PResult.ok conns2) →
       assemble conns2 = Except.ok st →
       (∀ c ∈ st.connections, c.id ≠ "lo") →
       adapter.connectResult = Except.ok () →
       adapter.readResult = Except.ok current →
       (∀ s', adapter.writeResult s' = Except.ok ()) →
       (migrateRun toConn { continue_migration := true, dry_run := false }
           adapter interfaces (some nc)).2 = PResult.ok ()) := by
  refine ⟨?_, ?_, ?_, ?_⟩
  · intro current st
    exact mdp_err_strict nc e current st hns
  · intro current st evsM s4 h
    simp only [mergeDnsPolicy, hns, if_true] at h
    cases hadd : add_connection st (mdp_loopback nc current []) with
    | error e2 =>
      rw [hadd] at h
      simp at h
    | ok st2 =>
      rw [hadd] at h
      simp only [Prod.mk.injEq, PResult.ok.injEq] at h
      obtain ⟨hevs, hs4⟩ := h
      refine ⟨hevs.symm, ?_⟩
      intro c hc hlo
      rw [← hs4] at hc
      rcases add_connection_ok_inv st _ st2 hadd with ⟨hany, hst2⟩
      simp only [set_ignore_auto_dns, apply_dns_policy] at hc
      have hc2 := map_lo_mem set_ignore_auto_dns_conn si_conn_id si_conn_lo _ c hc hlo
      have hc3 := map_lo_mem (apply_dns_policy_conn nc) (adp_conn_id nc) (adp_conn_lo nc)
        _ c hc2 hlo
      rw [hst2] at hc3
      rcases List.mem_append.mp hc3 with h1 | h1
      · exfalso
        have h2 := List.any_eq_false.mp hany c h1
        rw [mdp_loopback_id] at h2
        simp [hlo] at h2
      · have hceq : c = mdp_loopback nc current [] := by simpa using h1
        rw [hceq]
        exact mdp_loopback_ns nc current []
  · intro toConn adapter interfaces evs0 evs2 conns conns2 prs st current
      hmp hupc hasm hconn hread
    have hmerge := mdp_err_strict nc e current st hns
    constructor
    · simp only [migrateRun, hmp, hupc, hasm]
      simp only [Bool.false_eq_true, if_false]
      simp only [migrateApply, hconn, hread, hmerge]
    · intro s hs
      simp only [migrateRun, hmp, hupc, hasm] at hs
      simp only [Bool.false_eq_true, if_false] at hs
      simp only [migrateApply, hconn, hread, hmerge] at hs
      rcases List.mem_append.mp hs with h1 | h1
      · rcases List.mem_append.mp h1 with h2 | h2
        · have hevs0 : (mapPhase toConn false interfaces [] []).1 = evs0 := by rw [hmp]
          rcases mp_events toConn false interfaces [] [] _ (by rw [hevs0]; exact h2) with
            ⟨m0, hm0⟩
          cases hm0
        · have hevs2 : (updateParentConnection false conns prs).1 = evs2 := by rw [hupc]
          rcases upc_events false conns prs _ (by rw [hevs2]; exact h2) with ⟨m0, hm0⟩
          cases hm0
      · simp at h1
  · intro toConn adapter interfaces evs0 evs2 conns conns2 prs st current
      hmp hupc hasm hnolo hconn hread hwrite
    have hmerge := mdp_lenient_shape nc e current st hns hnolo
    simp only [migrateRun, hmp, hupc, hasm]
    simp only [Bool.false_eq_true, if_false]
    simp only [migrateApply, hconn, hread, hmerge, hwrite]

/-- C5, witness: a policy whose static nameserver list fails to parse,
exercised in strict mode (error before write) and lenient mode (warning,
empty nameserver list, successful write). -/
theorem static_dns_parse_failure_witness :
    mergeDnsPolicy false { staticDnsServers := Except.error "bad ip" } {} {} =
      ([], PResult.err
        (staticDnsErrMsg "bad ip" ++ ", use the `--continue-migration` flag to ignore")) ∧
    ([Event.logWarn (staticDnsErrMsg "bad ip")] = [Event.logWarn (staticDnsErrMsg "bad ip")] ∧
     ∀ c ∈ ({ connections := [create_lo_connection] } : NetworkState).connections,
       c.id = "lo" → c.ip_config.nameservers = []) ∧
    ((migrateRun
        (fun i => Except.ok { connections := [{ id := i.name, uuid := 5, interface := some i.name }], warnings := [] })
        { continue_migration := false, dry_run := false } {}
        [{ name := "eth0" }] (some { staticDnsServers := Except.error "bad ip" })).2 =
      PResult.err
        (staticDnsErrMsg "bad ip" ++ ", use the `--continue-migration` flag to ignore") ∧
     (∀ s, Event.adapterWrite s ∉
       (migrateRun
         (fun i => Except.ok { connections := [{ id := i.name, uuid := 5, interface := some i.name }], warnings := [] })
         { continue_migration := false, dry_run := false } {}
         [{ name := "eth0" }] (some { staticDnsServers := Except.error "bad ip" })).1)) ∧
    (migrateRun
        (fun i => Except.ok { connections := [{ id := i.name, uuid := 5, interface := some i.name }], warnings := [] })
        { continue_migration := true, dry_run := false } {}
        [{ name := "eth0" }] (some { staticDnsServers := Except.error "bad ip" })).2 =
      PResult.ok () := by
  have h := static_dns_parse_failure { staticDnsServers := Except.error "bad ip" } "bad ip" rfl
  refine ⟨h.1 {} {}, ?_, ?_, ?_⟩
  · exact h.2.1 {} {} [Event.logWarn (staticDnsErrMsg "bad ip")]
      { connections := [create_lo_connection] } (by decide)
  · exact h.2.2.1
      (fun i => Except.ok { connections := [{ id := i.name, uuid := 5, interface := some i.name }], warnings := [] })
      {} [{ name := "eth0" }] [] []
      [{ id := "eth0", uuid := 5, interface := some "eth0" }]
      [{ id := "eth0", uuid := 5, interface := some "eth0" }] []
      { connections := [{ id := "eth0", uuid := 5, interface := some "eth0" }] } {}
      (by rfl) (by rfl) (by rfl) (by rfl) (by rfl)
  · exact h.2.2.2
      (fun i => Except.ok { connections := [{ id := i.name, uuid := 5, interface := some i.name }], warnings := [] })
      {} [{ name := "eth0" }] [] []
      [{ id := "eth0", uuid := 5, interface := some "eth0" }]
      [{ id := "eth0", uuid := 5, interface := some "eth0" }] []
      { connections := [{ id := "eth0", uuid := 5, interface := some "eth0" }] } {}
      (by rfl) (by rfl) (by rfl) (by decide) (by rfl) (by rfl) (fun s' => rfl)

theorem string_data_lt_iff (a b : String) : a.data < b.data ↔ a < b :=
  String.lt_iff_toList_lt.symm

theorem scmp_eq_iff (a b : String) : scmp a b = Ordering.eq ↔ a = b := by
  simp only [scmp, string_data_lt_iff]
  by_cases h1 : a < b
  · rw [if_pos h1]
    constructor
    · intro h; cases h
    · intro h; exact absurd h1 (by rw [h]; exact lt_irrefl b)
  · rw [if_neg h1]
    by_cases h2 : b < a
    · rw [if_pos h2]
      constructor
      · intro h; cases h
      · intro h; rw [h] at h2; exact absurd h2 (lt_irrefl b)
    · rw [if_neg h2]
      simp only [true_iff]
      exact le_antisymm (le_of_not_lt h2) (le_of_not_lt h1)

theorem scmp_lt_iff (a b : String) : scmp a b = Ordering.lt ↔ a < b := by
  simp only [scmp, string_data_lt_iff]
  by_cases h1 : a < b
  · rw [if_pos h1]; simp [h1]
  · rw [if_neg h1]
    by_cases h2 : b < a
    · rw [if_pos h2]; simp [h1]
    · rw [if_neg h2]; simp [h1]

theorem scmp_gt_iff (a b : String) : scmp a b = Ordering.gt ↔ b < a := by
  simp only [scmp, string_data_lt_iff]
  by_cases h1 : a < b
  · rw [if_pos h1]
    constructor
    · intro h; cases h
    · intro h; exact absurd (lt_trans h1 h) (lt_irrefl a)
  · rw [if_neg h1]
    by_cases h2 : b < a
    · rw [if_pos h2]; simp [h2]
    · rw [if_neg h2]; simp [h2]

theorem bsearch_sound (l : List String) (t : String) :
    ∀ (fuel lo hi : Nat), hi ≤ l.length →
      bsearchGo l t fuel lo hi = true → t ∈ l := by
  intro fuel
  induction fuel with
  | zero =>
    intro lo hi h2 hf
    cases hf
  | succ n ih =>
    intro lo hi h2 hf
    simp only [bsearchGo] at hf
    by_cases hlt : lo < hi
    · rw [if_pos hlt] at hf
      cases hcmp : scmp (l.getD ((lo + hi) / 2) "") t with
      | lt =>
        rw [hcmp] at hf
        exact ih ((lo + hi) / 2 + 1) hi h2 hf
      | eq =>
        have heq := (scmp_eq_iff _ _).mp hcmp
        have hmid : (lo + hi) / 2 < l.length := by omega
        rw [List.getD_eq_getElem l "" hmid] at heq
        rw [← heq]
        exact List.getElem_mem hmid
      | gt =>
        rw [hcmp] at hf
        exact ih lo ((lo + hi) / 2) (by omega) hf
    · rw [if_neg hlt] at hf
      cases hf

theorem sorted_getD_lt (l : List String) (hs : l.Pairwise (fun a b => a < b))
    (i j : Nat) (hij : i < j) (hj : j < l.length) :
    l.getD i "" < l.getD j "" := by
  have hi : i < l.length := lt_trans hij hj
  rw [List.getD_eq_getElem l "" hi, List.getD_eq_getElem l "" hj]
  exact List.pairwise_iff_getElem.mp hs i j hi hj hij

theorem bsearch_complete (l : List String) (t : String)
    (hs : l.Pairwise (fun a b => a < b)) :
    ∀ (fuel lo hi i : Nat), hi - lo ≤ fuel → hi ≤ l.length → lo ≤ i → i < hi →
      l.getD i "" = t → bsearchGo l t fuel lo hi = true := by
  intro fuel
  induction fuel with
  | zero => intro lo hi i h1 h2 h3 h4 h5; omega
  | succ n ih =>
    intro lo hi i h1 h2 h3 h4 h5
    have hlt : lo < hi := by omega
    simp only [bsearchGo]
    rw [if_pos hlt]
    cases hcmp : scmp (l.getD ((lo + hi) / 2) "") t with
    | eq => rfl
    | lt =>
      have hmlt := (scmp_lt_iff _ _).mp hcmp
      have hmi : (lo + hi) / 2 < i := by
        by_contra hcon
        push_neg at hcon
        rcases Nat.lt_or_ge i ((lo + hi) / 2) with hc | hc
        · have := sorted_getD_lt l hs i ((lo + hi) / 2) hc (by omega)
          rw [h5] at this
          exact absurd (lt_trans hmlt this) (lt_irrefl _)
        · have hieq : i = (lo + hi) / 2 := by omega
          rw [hieq] at h5
          rw [h5] at hmlt
          exact absurd hmlt (lt_irrefl t)
      exact ih ((lo + hi) / 2 + 1) hi i (by omega) h2 (by omega) h4 h5
    | gt =>
      have hmgt := (scmp_gt_iff _ _).mp hcmp
      have hmi : i < (lo + hi) / 2 := by
        by_contra hcon
        push_neg at hcon
        rcases Nat.lt_or_ge ((lo + hi) / 2) i with hc | hc
        · have := sorted_getD_lt l hs ((lo + hi) / 2) i hc (by omega)
          rw [h5] at this
          exact absurd (lt_trans hmgt this) (lt_irrefl _)
        · have hieq : i = (lo + hi) / 2 := by omega
          rw [hieq] at h5
          rw [h5] at hmgt
          exact absurd hmgt (lt_irrefl t)
      exact ih lo ((lo + hi) / 2) i (by omega) (by omega) h3 hmi h5

theorem rustBinarySearch_iff_mem (l : List String) (t : String)
    (hs : l.Pairwise (fun a b => a < b)) :
    rustBinarySearch l t = true ↔ t ∈ l := by
  constructor
  · intro h
    exact bsearch_sound l t l.length 0 l.length (le_refl _) h
  · intro h
    rcases List.mem_iff_getElem.mp h with ⟨i, hi, hget⟩
    exact bsearch_complete l t hs l.length 0 l.length i (by omega) (le_refl _)
      (Nat.zero_le i) hi (by rw [List.getD_eq_getElem l "" hi]; exact hget)

theorem classifyStep_ok_inv (ifcs : List Interface) (e : String) (keep : Bool) (ev : Event)
    (h : classifyStep ifcs e = PResult.ok (keep, ev)) :
    ∃ a b, splitOnceDot e = some (a, b) ∧
      keep = ! rustBinarySearch IGNORED_FIELDS b := by
  simp only [classifyStep] at h
  cases hs : splitOnceDot e with
  | none => rw [hs] at h; cases h
  | some ab =>
    obtain ⟨a, b⟩ := ab
    rw [hs] at h
    simp only at h
    cases hn : parseUsize a with
    | none => rw [hn] at h; cases h
    | some n =>
      rw [hn] at h
      simp only at h
      cases hg : ifcs.get? n with
      | none => rw [hg] at h; cases h
      | some ifc =>
        rw [hg] at h
        simp only at h
        by_cases hb : rustBinarySearch IGNORED_FIELDS b
        · rw [if_pos hb] at h
          simp only [PResult.ok.injEq, Prod.mk.injEq] at h
          exact ⟨a, b, rfl, by rw [← h.1, hb]; rfl⟩
        · rw [if_neg hb] at h
          simp only [PResult.ok.injEq, Prod.mk.injEq] at h
          refine ⟨a, b, rfl, ?_⟩
          rw [← h.1]
          simp [Bool.eq_false_iff.mpr hb]

theorem cuf_kept_iff (ifcs : List Interface) :
    ∀ (paths : List String) (kept : List String) (evs : List Event),
      classifyUnhandledFields ifcs paths = PResult.ok (kept, evs) →
      (kept = [] ↔ ∀ e ∈ paths, ∀ a b, splitOnceDot e = some (a, b) →
        rustBinarySearch IGNORED_FIELDS b = true) := by
  intro paths
  induction paths with
  | nil =>
    intro kept evs h
    simp only [classifyUnhandledFields, PResult.ok.injEq, Prod.mk.injEq] at h
    rw [← h.1]
    simp
  | cons e rest ih =>
    intro kept evs h
    simp only [classifyUnhandledFields] at h
    cases hstep : classifyStep ifcs e with
    | panic => rw [hstep] at h; cases h
    | err m => rw [hstep] at h; cases h
    | ok kev =>
      obtain ⟨keep, ev⟩ := kev
      rw [hstep] at h
      simp only at h
      cases hrest : classifyUnhandledFields ifcs rest with
      | ok kevs =>
        obtain ⟨kept0, evs0⟩ := kevs
        rw [hrest] at h
        simp only [PResult.ok.injEq, Prod.mk.injEq] at h
        obtain ⟨hkept, _⟩ := h
        rcases classifyStep_ok_inv ifcs e keep ev hstep with ⟨a, b, hsplit, hkeep⟩
        have hih := ih kept0 evs0 hrest
        rw [← hkept]
        constructor
        · intro hnil
          have hkeepf : keep = false ∧ kept0 = [] := by
            cases keep with
            | false => exact ⟨rfl, by simpa using hnil⟩
            | true => simp at hnil
          intro e0 he0 a0 b0 hs0
          rcases List.mem_cons.mp he0 with he1 | he1
          · subst he1
            rw [hsplit] at hs0
            have hpair := Option.some.inj hs0
            have hbb : b = b0 := congrArg Prod.snd hpair
            have hbs : rustBinarySearch IGNORED_FIELDS b = true := by
              have h2 := hkeep
              rw [hkeepf.1] at h2
              cases hcase : rustBinarySearch IGNORED_FIELDS b with
              | true => rfl
              | false => rw [hcase] at h2; simp at h2
            rw [← hbb]
            exact hbs
          · exact (hih.mp hkeepf.2) e0 he1 a0 b0 hs0
        · intro hall
          have hb_true : rustBinarySearch IGNORED_FIELDS b = true :=
            hall e (List.mem_cons_self _ _) a b hsplit
          have hkeepf : keep = false := by
            rw [hkeep, hb_true]
            rfl
          rw [hkeepf]
          simp only [Bool.false_eq_true, if_false, List.nil_append]
          exact hih.mpr (fun e0 he0 => hall e0 (List.mem_cons_of_mem _ he0))
      | err m => rw [hrest] at h; cases h
      | panic => rw [hrest] at h; cases h

/-- C6: unrecognized-field classification.  The fixed allow-list is in
strict lexicographic order; because of that, the binary-search membership
test used by the classifier returns true exactly for members of
`IGNORED_FIELDS`; and a successfully classified result carries the
unhandled-fields warning iff some reported path's field lies outside the
allow-list (members are only debug-logged and never produce the
warning). -/
theorem ignored_fields_classification :
    IGNORED_FIELDS.Pairwise (fun a b => a < b) ∧
    (∀ f : String, rustBinarySearch IGNORED_FIELDS f = true ↔ f ∈ IGNORED_FIELDS) ∧
    (∀ (ifcs : List Interface) (paths : List String) (w : Option String) (evs : List Event),
       unconsumedFieldsOutcome ifcs paths = PResult.ok (w, evs) →
       (w.isSome ↔ ∃ e ∈ paths, ∃ a b, splitOnceDot e = some (a, b) ∧
         b ∉ IGNORED_FIELDS)) := by
  have hsorted : IGNORED_FIELDS.Pairwise (fun a b => a < b) := by
    have h : IGNORED_FIELDS.Pairwise (fun a b => a.data < b.data) := by decide
    exact h.imp (fun hab => String.lt_iff_toList_lt.mpr hab)
  have hmemiff : ∀ f : String, rustBinarySearch IGNORED_FIELDS f = true ↔ f ∈ IGNORED_FIELDS :=
    fun f => rustBinarySearch_iff_mem IGNORED_FIELDS f hsorted
  refine ⟨hsorted, hmemiff, ?_⟩
  intro ifcs paths w evs h
  simp only [unconsumedFieldsOutcome] at h
  cases hcl : classifyUnhandledFields ifcs paths with
  | err m => rw [hcl] at h; cases h
  | panic => rw [hcl] at h; cases h
  | ok kevs =>
    obtain ⟨kept, evs0⟩ := kevs
    rw [hcl] at h
    simp only [PResult.ok.injEq, Prod.mk.injEq] at h
    obtain ⟨hw, _⟩ := h
    have hiff := cuf_kept_iff ifcs paths kept evs0 hcl
    rw [← hw]
    by_cases hk : kept = []
    · rw [hk]
      simp only [List.isEmpty_nil, if_true, Option.isSome_none]
      constructor
      · intro habs; cases habs
      · rintro ⟨e, he, a, b, hsplit, hnmem⟩
        exact absurd ((hmemiff b).mp (hiff.mp hk e he a b hsplit)) hnmem
    · have hke : kept.isEmpty = false := by
        cases kept with
        | nil => exact absurd rfl hk
        | cons x xs => rfl
      rw [hke]
      simp only [Bool.false_eq_true, if_false, Option.isSome_some, true_iff]
      have hnall := (not_iff_not.mpr hiff).mp hk
      push_neg at hnall
      rcases hnall with ⟨e, he, a, b, hsplit, hnb⟩
      refine ⟨e, he, a, b, hsplit, ?_⟩
      intro hmem
      exact hnb ((hmemiff b).mpr hmem)

/-- C6, witness: a member of the allow-list is debug-classified and
produces no warning; a non-member makes the result carry the warning. -/
theorem ignored_fields_classification_witness :
    (rustBinarySearch IGNORED_FIELDS "ipv6.autoconf" = true ↔
      "ipv6.autoconf" ∈ IGNORED_FIELDS) ∧
    ((some unhandledFieldsMsg).isSome ↔
      ∃ e ∈ ["0.ipv4.forwarding", "0.foo"], ∃ a b, splitOnceDot e = some (a, b) ∧
        b ∉ IGNORED_FIELDS) := by
  constructor
  · exact ignored_fields_classification.2.1 "ipv6.autoconf"
  · exact ignored_fields_classification.2.2 [{ name := "eth0" }]
      ["0.ipv4.forwarding", "0.foo"] (some unhandledFieldsMsg)
      [Event.logDebug (ignoredFieldDebugMsg "eth0" "ipv4.forwarding"),
       Event.logWarn (unhandledFieldWarnMsg "eth0" "foo")]
      (by decide)

theorem str_data_append (s t : String) : (s ++ t).data = s.data ++ t.data := by
  cases s
  cases t
  rfl

theorem containsSub_self (pat l2 : List Char) : containsSub pat (pat ++ l2) = true := by
  cases h : pat ++ l2 with
  | nil =>
    have hp : pat = [] := by
      cases pat with
      | nil => rfl
      | cons c cs => cases h
    simp [containsSub, hp]
  | cons c rest =>
    rw [containsSub, ← h]
    have hpre : pat.isPrefixOf (pat ++ l2) = true := by
      rw [List.isPrefixOf_iff_prefix]
      exact List.prefix_append pat l2
    rw [hpre]
    rfl

theorem containsSub_append_mid (pat l2 : List Char) :
    ∀ l1 : List Char, containsSub pat (l1 ++ (pat ++ l2)) = true := by
  intro l1
  induction l1 with
  | nil => simpa using containsSub_self pat l2
  | cons c l1' ih =>
    rw [List.cons_append, containsSub, ih]
    simp

theorem namesSub_mid (pre name post : String) :
    NamesSub (pre ++ name ++ post) name := by
  simp only [NamesSub, str_data_append]
  rw [List.append_assoc]
  exact containsSub_append_mid name.data post.data pre.data

/-- C8, counterexample: an unconsumed field `foo` on interface `eth0` makes
`deserialize_xml` attach the fixed error "Unhandled fields, use the
`--continue-migration` flag to ignore", which names neither the interface
nor the field — those names appear only in the warning log line. -/
theorem unhandled_fields_error_generic_cex :
    unconsumedFieldsOutcome [{ name := "eth0" }] ["0.foo"] =
      PResult.ok (some unhandledFieldsMsg,
        [Event.logWarn (unhandledFieldWarnMsg "eth0" "foo")]) ∧
    ¬ NamesSub unhandledFieldsMsg "eth0" ∧
    ¬ NamesSub unhandledFieldsMsg "foo" := by
  refine ⟨by decide, ?_, ?_⟩
  · intro h
    simp only [NamesSub] at h
    exact absurd h (by decide)
  · intro h
    simp only [NamesSub] at h
    exact absurd h (by decide)

/-- C8 (amended): the fatal errors raised by the migration orchestrator and
the dependency resolver name the offending interface in their message (the
warning-abort error and the second-pass inconsistency error both embed the
connection id); the unconsumed-fields failure is the exception: its error
value is the fixed generic message, with interface and field named only in
the per-field warning log. -/
theorem fatal_error_messages :
    (∀ id : String, NamesSub (warnAbortMsg id) id) ∧
    (∀ id : String, NamesSub (missingConnectionMsg id) id) ∧
    (∀ e : String, NamesSub (staticDnsErrMsg e) e) ∧
    (∀ (ifcs : List Interface) (paths : List String) (w : Option String)
       (evs : List Event),
       unconsumedFieldsOutcome ifcs paths = PResult.ok (w, evs) →
       ∀ m, w = some m → m = unhandledFieldsMsg) := by
  refine ⟨?_, ?_, ?_, ?_⟩
  · intro id
    exact namesSub_mid "Migration of " id " failed because of warnings, use the `--continue-migration` flag to ignore"
  · intro id
    have h := namesSub_mid "Unexpected failure - missing connection " id ""
    simpa [missingConnectionMsg, warnAbortMsg] using h
  · intro e
    have h := namesSub_mid "Error when parsing static DNS servers: " e ""
    simpa [staticDnsErrMsg] using h
  · intro ifcs paths w evs h m hm
    simp only [unconsumedFieldsOutcome] at h
    cases hcl : classifyUnhandledFields ifcs paths with
    | err m2 => rw [hcl] at h; cases h
    | panic => rw [hcl] at h; cases h
    | ok kevs =>
      obtain ⟨kept, evs0⟩ := kevs
      rw [hcl] at h
      simp only [PResult.ok.injEq, Prod.mk.injEq] at h
      obtain ⟨hw, _⟩ := h
      rw [← hw] at hm
      by_cases hk : kept.isEmpty
      · rw [hk] at hm
        simp at hm
      · rw [Bool.eq_false_iff.mpr hk] at hm
        simp only [Bool.false_eq_true, if_false, Option.some.injEq] at hm
        exact hm.symm

/-- C8, witness for the amended theorem at concrete inputs. -/
theorem fatal_error_messages_witness :
    NamesSub (warnAbortMsg "eth0") "eth0" ∧
    NamesSub (missingConnectionMsg "br0") "br0" ∧
    (unhandledFieldsMsg : String) = unhandledFieldsMsg := by
  refine ⟨fatal_error_messages.1 "eth0", fatal_error_messages.2.1 "br0", ?_⟩
  exact fatal_error_messages.2.2.2 [{ name := "eth0" }] ["0.foo"]
    (some unhandledFieldsMsg) [Event.logWarn (unhandledFieldWarnMsg "eth0" "foo")]
    (by decide) unhandledFieldsMsg rfl

/-- C10: the unhandled-field classifier assumes every reported path has the
form index-dot-field with an in-range index: a path without a dot, with a
non-numeric prefix, or with an out-of-range index makes `deserialize_xml`
panic (unwrap on `split_once`, unwrap on `parse`, unchecked slice index)
rather than return an error; witnessed at each of the three shapes. -/
theorem unhandled_path_shape_unchecked :
    (∀ (ifcs : List Interface) (e : String) (rest : List String),
       (splitOnceDot e = none ∨
        (∃ a b, splitOnceDot e = some (a, b) ∧ parseUsize a = none) ∨
        (∃ a b n, splitOnceDot e = some (a, b) ∧ parseUsize a = some n ∧
          ifcs.length ≤ n)) →
       classifyUnhandledFields ifcs (e :: rest) = PResult.panic) ∧
    classifyUnhandledFields [{ name := "eth0" }] ["nodot"] = PResult.panic ∧
    classifyUnhandledFields [{ name := "eth0" }] ["x.field"] = PResult.panic ∧
    classifyUnhandledFields [{ name := "eth0" }] ["5.field"] = PResult.panic := by
  refine ⟨?_, by decide, by decide, by decide⟩
  intro ifcs e rest h
  have hstep : classifyStep ifcs e = PResult.panic := by
    rcases h with h1 | ⟨a, b, h1, h2⟩ | ⟨a, b, n, h1, h2, h3⟩
    · simp [classifyStep, h1]
    · simp [classifyStep, h1, h2]
    · simp [classifyStep, h1, h2, List.getElem?_eq_none h3]
  simp [classifyUnhandledFields, hstep]

/-- C10, witness: the no-dot shape drives the classifier into the panic
outcome through the general shape theorem. -/
theorem unhandled_path_shape_unchecked_witness :
    classifyUnhandledFields [{ name := "br7" }] ["orphan"] = PResult.panic :=
  unhandled_path_shape_unchecked.1 [{ name := "br7" }] "orphan" []
    (Or.inl (by decide))
